import Mathlib

/-
Verification of the renderz falling-cubes physics core
(src/falling-cubes-demo.cpp) against its natural-language specification.

The C++ floats are modelled as real numbers; the shared sequential random
generator is modelled as oracle streams (one per distribution object used by
the physics core) with explicit counters, threaded through the step exactly
in the order the source draws from them.  The source's fixed NUM_CUBES loop
bound is generalised to the length of the body list (in the original program
the list always has exactly NUM_CUBES elements, so the two coincide).

Every definition is translated from the source; the single exception is
`stepCubeSpecResting`, the comparison definition for the refinement claim
about the resting classification, which follows the specification's words
(recompute the bottom face from the post-clamp position).
-/

namespace Renderz

noncomputable section

/-- Decidability of arbitrary propositions, used to mirror the source's
float comparisons inside if-then-else. -/
instance (priority := low) propDecide (p : Prop) : Decidable p :=
  Classical.propDecidable p

/-! ## Configuration constants (lines 35-46 of the source) -/

def GRAVITY : ℝ := 981 / 100
def GROUND_Y : ℝ := -2
def CUBE_SIZE : ℝ := 1 / 2
def BOUNCE_FACTOR : ℝ := 1
def FRICTION_FACTOR : ℝ := 9 / 10
def REST_THRESHOLD : ℝ := 1 / 20
def RESET_INTERVAL_SECONDS : ℝ := 13
def AUTO_ROTATE_SPEED_Y : ℝ := 100

/-! ## Vector math (struct Vec3, lines 78-105) -/

structure Vec3 where
  x : ℝ
  y : ℝ
  z : ℝ

instance : Inhabited Vec3 := ⟨⟨0, 0, 0⟩⟩

/-- Source line 84: `Vec3 operator+` — note the z component of the result is
`x + other.y` in the source, translated verbatim. -/
def Vec3.add (a b : Vec3) : Vec3 := ⟨a.x + b.x, a.y + b.y, a.z + b.y⟩

/-- Source line 86: `Vec3 operator-` (componentwise). -/
def Vec3.sub (a b : Vec3) : Vec3 := ⟨a.x - b.x, a.y - b.y, a.z - b.z⟩

/-- Source line 88: `Vec3 operator*` (scalar). -/
def Vec3.smul (a : Vec3) (s : ℝ) : Vec3 := ⟨a.x * s, a.y * s, a.z * s⟩

/-- Source line 90: dot product. -/
def Vec3.dot (a b : Vec3) : ℝ := a.x * b.x + a.y * b.y + a.z * b.z

/-- Source lines 92-96: cross product — the y component of the result is
`z * other.x - x * other.y` in the source, translated verbatim. -/
def Vec3.cross (a b : Vec3) : Vec3 :=
  ⟨a.y * b.z - a.z * b.y, a.z * b.x - a.x * b.y, a.x * b.y - a.y * b.x⟩

/-- Source line 98: Euclidean length. -/
def Vec3.length (a : Vec3) : ℝ := Real.sqrt (a.x * a.x + a.y * a.y + a.z * a.z)

/-- Source lines 100-104: normalize with zero-vector fallback. -/
def Vec3.normalize (a : Vec3) : Vec3 :=
  if a.length > 0 then ⟨a.x / a.length, a.y / a.length, a.z / a.length⟩
  else ⟨0, 0, 0⟩

/-! ## C `fmod` (truncated-division remainder, as used on line 397/412-414) -/

/-- Rounding toward zero, as an integer. -/
def truncToZero (t : ℝ) : ℤ := if 0 ≤ t then ⌊t⌋ else ⌈t⌉

/-- C `fmod x y = x - y * trunc (x / y)`; the result carries the sign of the
dividend. -/
def fmod (x y : ℝ) : ℝ := x - y * (truncToZero (x / y) : ℝ)

/-! ## Rigid body state (struct Cube, lines 107-114) -/

structure Cube where
  position : Vec3
  velocity : Vec3
  angularVelocity : Vec3
  rotation : Vec3
  size : ℝ
  resting : Bool

instance : Inhabited Cube :=
  ⟨⟨⟨0, 0, 0⟩, ⟨0, 0, 0⟩, ⟨0, 0, 0⟩, ⟨0, 0, 0⟩, 0, false⟩⟩

/-! ## Random source

The program owns one mt19937 engine feeding several distribution objects;
the physics core draws from `dist_bounce_angle` (range [-0.5, 0.5]),
`dist_angular_vel` (range [-180, 180]) and `dist_height` (range [5, 15]).
Each distribution is modelled as an oracle stream with a counter; draws
happen in source order. -/

structure Rng where
  bounceAngle : ℕ → ℝ
  bounceIdx : ℕ
  angularVel : ℕ → ℝ
  angularIdx : ℕ
  height : ℕ → ℝ
  heightIdx : ℕ

/-- One draw from `dist_bounce_angle`. -/
def Rng.nextBounce (r : Rng) : ℝ × Rng :=
  (r.bounceAngle r.bounceIdx, { r with bounceIdx := r.bounceIdx + 1 })

/-- One draw from `dist_angular_vel`. -/
def Rng.nextAngular (r : Rng) : ℝ × Rng :=
  (r.angularVel r.angularIdx, { r with angularIdx := r.angularIdx + 1 })

/-- Three consecutive draws from `dist_angular_vel`, as used to build a fresh
random angular velocity vector. -/
def Rng.nextAngular3 (r : Rng) : Vec3 × Rng :=
  let d1 := r.nextAngular
  let d2 := d1.2.nextAngular
  let d3 := d2.2.nextAngular
  (⟨d1.1, d2.1, d3.1⟩, d3.2)

/-- One draw from `dist_height`. -/
def Rng.nextHeight (r : Rng) : ℝ × Rng :=
  (r.height r.heightIdx, { r with heightIdx := r.heightIdx + 1 })

/-- A concrete random source whose draws are all zero (zero is inside the
range of `dist_bounce_angle` and of `dist_angular_vel`), used for concrete
executions. -/
def rng0 : Rng :=
  { bounceAngle := fun _ => 0, bounceIdx := 0, angularVel := fun _ => 0,
    angularIdx := 0, height := fun _ => 0, heightIdx := 0 }

/-! ## Per-cube phase of updatePhysics (lines 399-511)

The gravity/position/rotation integration, the ground bounce, the two wall
bounce blocks, and the resting classification.  The bounce velocity update
(repeated five times in the source with different normals and perturbation
patterns) is factored into `bounceVelocity`/`bounceAngular`; each call site
instantiates it exactly as the corresponding source block does. -/

/-- Lines 422-432 (and the analogous wall blocks): post-collision velocity.
`bounce_direction = (normal + perturb).normalize`, reflect the normal
component along it, damp the tangential component by the friction factor. -/
def bounceVelocity (normal perturb v : Vec3) : Vec3 :=
  let bounceDirection := (normal.add perturb).normalize
  let normalSpeed := v.dot normal
  let newNormalVelocity := bounceDirection.smul (-normalSpeed * BOUNCE_FACTOR)
  let tangentialVelocity := (v.sub (normal.smul normalSpeed)).smul FRICTION_FACTOR
  newNormalVelocity.add tangentialVelocity

/-- Lines 434-436 (and analogous): a fresh random angular velocity when the
normal speed magnitude exceeds the rest threshold, otherwise unchanged. -/
def bounceAngular (normal v av : Vec3) (r : Rng) : Vec3 × Rng :=
  if |v.dot normal| > REST_THRESHOLD then r.nextAngular3 else (av, r)

/-- Lines 402-414: gravity on `velocity.y`, position integration, rotation
integration with `fmod` wrap. -/
def integrate (dt : ℝ) (c : Cube) : Cube :=
  let v : Vec3 := ⟨c.velocity.x, c.velocity.y - GRAVITY * dt, c.velocity.z⟩
  { c with
    velocity := v
    position := ⟨c.position.x + v.x * dt, c.position.y + v.y * dt,
                 c.position.z + v.z * dt⟩
    rotation := ⟨fmod (c.rotation.x + c.angularVelocity.x * dt) 360,
                 fmod (c.rotation.y + c.angularVelocity.y * dt) 360,
                 fmod (c.rotation.z + c.angularVelocity.z * dt) 360⟩ }

/-- Lines 419-437: ground collision — clamp the bottom face onto the ground
plane and bounce with a random XZ perturbation of the up normal. -/
def groundResponse (c : Cube) (r : Rng) : Cube × Rng :=
  let halfSize := c.size / 2
  if c.position.y - halfSize < GROUND_Y then
    let d1 := r.nextBounce
    let d2 := d1.2.nextBounce
    let normal : Vec3 := ⟨0, 1, 0⟩
    let v' := bounceVelocity normal ⟨d1.1, 0, d2.1⟩ c.velocity
    let ar := bounceAngular normal c.velocity c.angularVelocity d2.2
    ({ c with position := ⟨c.position.x, GROUND_Y + halfSize, c.position.z⟩,
              velocity := v', angularVelocity := ar.1 }, ar.2)
  else (c, r)

/-- Lines 439-470: the two X wall planes at `bound = 8`. -/
def wallXResponse (c : Cube) (r : Rng) : Cube × Rng :=
  let halfSize := c.size / 2
  let bound : ℝ := 8
  if c.position.x - halfSize < -bound then
    let d1 := r.nextBounce
    let d2 := d1.2.nextBounce
    let normal : Vec3 := ⟨1, 0, 0⟩
    let v' := bounceVelocity normal ⟨0, d1.1, d2.1⟩ c.velocity
    let ar := bounceAngular normal c.velocity c.angularVelocity d2.2
    ({ c with position := ⟨-bound + halfSize, c.position.y, c.position.z⟩,
              velocity := v', angularVelocity := ar.1 }, ar.2)
  else if c.position.x + halfSize > bound then
    let d1 := r.nextBounce
    let d2 := d1.2.nextBounce
    let normal : Vec3 := ⟨-1, 0, 0⟩
    let v' := bounceVelocity normal ⟨0, d1.1, d2.1⟩ c.velocity
    let ar := bounceAngular normal c.velocity c.angularVelocity d2.2
    ({ c with position := ⟨bound - halfSize, c.position.y, c.position.z⟩,
              velocity := v', angularVelocity := ar.1 }, ar.2)
  else (c, r)

/-- Lines 472-502: the two Z wall planes at `bound = 8`. -/
def wallZResponse (c : Cube) (r : Rng) : Cube × Rng :=
  let halfSize := c.size / 2
  let bound : ℝ := 8
  if c.position.z - halfSize < -bound then
    let d1 := r.nextBounce
    let d2 := d1.2.nextBounce
    let normal : Vec3 := ⟨0, 0, 1⟩
    let v' := bounceVelocity normal ⟨d1.1, d2.1, 0⟩ c.velocity
    let ar := bounceAngular normal c.velocity c.angularVelocity d2.2
    ({ c with position := ⟨c.position.x, c.position.y, -bound + halfSize⟩,
              velocity := v', angularVelocity := ar.1 }, ar.2)
  else if c.position.z + halfSize > bound then
    let d1 := r.nextBounce
    let d2 := d1.2.nextBounce
    let normal : Vec3 := ⟨0, 0, -1⟩
    let v' := bounceVelocity normal ⟨d1.1, d2.1, 0⟩ c.velocity
    let ar := bounceAngular normal c.velocity c.angularVelocity d2.2
    ({ c with position := ⟨c.position.x, c.position.y, bound - halfSize⟩,
              velocity := v', angularVelocity := ar.1 }, ar.2)
  else (c, r)

/-- Lines 504-510: resting classification.  `cubeBottom` is the bottom-face
height the source computed on line 417, before the ground clamp. -/
def restingUpdate (cubeBottom : ℝ) (c : Cube) : Cube :=
  if c.velocity.length < REST_THRESHOLD ∧
     c.angularVelocity.length < REST_THRESHOLD * 10 ∧
     cubeBottom ≤ GROUND_Y + REST_THRESHOLD then
    { c with resting := true, velocity := ⟨0, 0, 0⟩,
             angularVelocity := ⟨0, 0, 0⟩ }
  else { c with resting := false }

/-- One iteration of the per-cube loop (lines 399-511). -/
def stepCube (dt : ℝ) (c : Cube) (r : Rng) : Cube × Rng :=
  let c1 := integrate dt c
  let cubeBottom := c1.position.y - c1.size / 2
  let g := groundResponse c1 r
  let wx := wallXResponse g.1 g.2
  let wz := wallZResponse wx.1 wx.2
  (restingUpdate cubeBottom wz.1, wz.2)

/-- The per-cube loop over the whole collection, threading the random
source in index order. -/
def stepCubes (dt : ℝ) : List Cube → Rng → List Cube × Rng
  | [], r => ([], r)
  | c :: cs, r =>
    let s := stepCube dt c r
    let t := stepCubes dt cs s.2
    (s.1 :: t.1, t.2)

/-! ## Pairwise collision resolution (lines 513-584) -/

/-- The three candidate separation axes. -/
inductive Axis where
  | x
  | y
  | z
  deriving DecidableEq

/-- Lines 550-559: the separation-axis choice, by strict `<` comparisons in
the order X, Y, Z. -/
def chooseAxis (ox oy oz : ℝ) : Axis :=
  if ox < oy ∧ ox < oz then Axis.x
  else if oy < ox ∧ oy < oz then Axis.y
  else Axis.z

/-- The per-axis overlap selected by an axis. -/
def axisOverlap (a : Axis) (ox oy oz : ℝ) : ℝ :=
  match a with
  | Axis.x => ox
  | Axis.y => oy
  | Axis.z => oz

/-- Lines 518-524: the AABB faces of a body. -/
def minX (c : Cube) : ℝ := c.position.x - c.size / 2

def maxX (c : Cube) : ℝ := c.position.x + c.size / 2

def minY (c : Cube) : ℝ := c.position.y - c.size / 2

def maxY (c : Cube) : ℝ := c.position.y + c.size / 2

def minZ (c : Cube) : ℝ := c.position.z - c.size / 2

def maxZ (c : Cube) : ℝ := c.position.z + c.size / 2

/-- Lines 538-542: the three-axis AABB overlap test. -/
def overlapsAABB (c1 c2 : Cube) : Prop :=
  (maxX c1 > minX c2 ∧ minX c1 < maxX c2) ∧
  (maxY c1 > minY c2 ∧ minY c1 < maxY c2) ∧
  (maxZ c1 > minZ c2 ∧ minZ c1 < maxZ c2)

/-- Lines 543-545: the per-axis overlap amounts. -/
def overlapX (c1 c2 : Cube) : ℝ := min (maxX c1) (maxX c2) - max (minX c1) (minX c2)

def overlapY (c1 c2 : Cube) : ℝ := min (maxY c1) (maxY c2) - max (minY c1) (minY c2)

def overlapZ (c1 c2 : Cube) : ℝ := min (maxZ c1) (maxZ c2) - max (minZ c1) (minZ c2)

/-- The separation axis selected for a pair (lines 550-559). -/
def pairAxis (c1 c2 : Cube) : Axis :=
  chooseAxis (overlapX c1 c2) (overlapY c1 c2) (overlapZ c1 c2)

/-- The MTV direction for a pair: the unit vector along the selected axis,
pointing from body 2's center toward body 1's center (an exactly equal pair
of centers gives -1 because `>` is false). -/
def mtvDirection (c1 c2 : Cube) : Vec3 :=
  match pairAxis c1 c2 with
  | Axis.x => ⟨if c1.position.x > c2.position.x then 1 else -1, 0, 0⟩
  | Axis.y => ⟨0, if c1.position.y > c2.position.y then 1 else -1, 0⟩
  | Axis.z => ⟨0, 0, if c1.position.z > c2.position.z then 1 else -1⟩

/-- Line 561: half the minimal overlap plus the 0.001 epsilon. -/
def separationAmount (c1 c2 : Cube) : ℝ :=
  axisOverlap (pairAxis c1 c2) (overlapX c1 c2) (overlapY c1 c2) (overlapZ c1 c2) /
    2 + 1 / 1000

/-- Line 562: body 1 pushed along the MTV (through the source's `+`). -/
def sepCube1 (c1 c2 : Cube) : Cube :=
  { c1 with position :=
      c1.position.add ((mtvDirection c1 c2).smul (separationAmount c1 c2)) }

/-- Line 563: body 2 pushed against the MTV (through the source's `-`). -/
def sepCube2 (c1 c2 : Cube) : Cube :=
  { c2 with position :=
      c2.position.sub ((mtvDirection c1 c2).smul (separationAmount c1 c2)) }

/-- Lines 515-583: resolution of one (i, j) pair: AABB overlap test, MTV
axis choice, positional separation by half the overlap plus epsilon, and a
friction-damped impulse when the pair is converging along the axis. -/
def resolvePair (cs : List Cube) (p : ℕ × ℕ) (r : Rng) : List Cube × Rng :=
  let c1 := cs.getD p.1 default
  let c2 := cs.getD p.2 default
  if overlapsAABB c1 c2 then
    let c1a := sepCube1 c1 c2
    let c2a := sepCube2 c1 c2
    let d := mtvDirection c1 c2
    let relVel := (c1a.velocity.sub c2a.velocity).dot d
    if relVel < 0 then
      let impulse := -(1 + BOUNCE_FACTOR) * relVel / 2
      let iv := d.smul impulse
      let v1 := c1a.velocity.add iv
      let v2 := c2a.velocity.sub iv
      let t1 := v1.sub (d.smul (v1.dot d))
      let t2 := v2.sub (d.smul (v2.dot d))
      let v1f := (d.smul (v1.dot d)).add (t1.smul FRICTION_FACTOR)
      let v2f := (d.smul (v2.dot d)).add (t2.smul FRICTION_FACTOR)
      let g1 := r.nextAngular3
      let g2 := g1.2.nextAngular3
      ((cs.set p.1 { c1a with velocity := v1f, angularVelocity := g1.1 }).set
        p.2 { c2a with velocity := v2f, angularVelocity := g2.1 }, g2.2)
    else
      ((cs.set p.1 c1a).set p.2 c2a, r)
  else (cs, r)

/-- The (i, j) index pairs visited by the nested loops on lines 513-514, in
source order: i ascending, then j from i+1 ascending. -/
def pairsOuter (n : ℕ) : ℕ → List (ℕ × ℕ)
  | 0 => []
  | m + 1 =>
    pairsOuter n m ++ ((List.range n).filter fun j => m < j).map fun j => (m, j)

/-- All loop pairs for a collection of n bodies. -/
def pairIdx (n : ℕ) : List (ℕ × ℕ) := pairsOuter n n

/-- How many of the loop pairs touch body k. -/
def countPairs (k : ℕ) (ps : List (ℕ × ℕ)) : ℕ :=
  ps.countP fun p => p.1 == k || p.2 == k

/-- The full pairwise pass (lines 513-584). -/
def resolveAll (cs : List Cube) (r : Rng) : List Cube × Rng :=
  (pairIdx cs.length).foldl (fun st p => resolvePair st.1 p st.2) (cs, r)

/-! ## Scene reset and the whole-world step (lines 352-394) -/

/-- The global mutable state of the program that the physics core touches:
the body collection, the timers/counters, the auto-rotation angle and the
random source. -/
structure World where
  cubes : List Cube
  secondTimer : ℝ
  secondsCount : ℕ
  fpsTimer : ℝ
  frameCount : ℕ
  resetTimer : ℝ
  rotateY : ℝ
  rng : Rng

/-- Lines 356-367: one freshly initialized body (grid position from the
index, random height offset h). -/
def resetCube (i : ℕ) (h : ℝ) : Cube :=
  { position := ⟨(((i % 10 : ℕ) : ℝ) - 5) * (CUBE_SIZE * 2),
                 ((i / 100 : ℕ) : ℝ) * (CUBE_SIZE * 2) + h,
                 ((((i / 10) % 10 : ℕ) : ℝ) - 5) * (CUBE_SIZE * 2)⟩
    velocity := ⟨0, 0, 0⟩
    angularVelocity := ⟨0, 0, 0⟩
    rotation := ⟨0, 0, 0⟩
    size := CUBE_SIZE
    resting := false }

/-- The reset loop (lines 355-370), drawing one height per body in index
order; the first argument is the number of bodies still to create, the
second the index of the next body. -/
def resetLoop : ℕ → ℕ → Rng → List Cube × Rng
  | 0, _, r => ([], r)
  | k + 1, i, r =>
    let d := r.nextHeight
    let rest := resetLoop k (i + 1) d.2
    (resetCube i d.1 :: rest.1, rest.2)

/-- Lines 352-370: the fresh body collection for a reset with n bodies. -/
def resetCubes (n : ℕ) (r : Rng) : List Cube × Rng := resetLoop n 0 r

/-- Lines 352-376: whole-world reset — new bodies, all timers and counters
zeroed.  (`rotateY` is not touched by the source's reset.) -/
def resetWorld (n : ℕ) (w : World) : World :=
  let cr := resetCubes n w.rng
  { cubes := cr.1, secondTimer := 0, secondsCount := 0, fpsTimer := 0,
    frameCount := 0, resetTimer := 0, rotateY := w.rotateY, rng := cr.2 }

/-- Lines 378-585: `updatePhysics(deltaTime)` — timers, the reset trigger,
auto-rotation, then the per-cube phase and the pairwise phase. -/
def updatePhysics (dt : ℝ) (w : World) : World :=
  let st1 := w.secondTimer + dt
  let stc :=
    if st1 ≥ 1 then ((0 : ℝ), w.secondsCount + 1) else (st1, w.secondsCount)
  let rt1 := w.resetTimer + dt
  let w1 :=
    if rt1 ≥ RESET_INTERVAL_SECONDS then
      resetWorld w.cubes.length
        { w with secondTimer := stc.1, secondsCount := stc.2, resetTimer := rt1 }
    else
      { w with secondTimer := stc.1, secondsCount := stc.2, resetTimer := rt1 }
  let rotY := fmod (w1.rotateY + AUTO_ROTATE_SPEED_Y * dt) 360
  let s1 := stepCubes dt w1.cubes w1.rng
  let s2 := resolveAll s1.1 s1.2
  { w1 with rotateY := rotY, cubes := s2.1, rng := s2.2 }

/-- A comparison definition for the refinement claim about the resting
classification.  Identical to `stepCube` except that, as the specification
words it, the resting test recomputes the bottom face from the body's
position after the ground clamp and wall clamps. -/
def stepCubeSpecResting (dt : ℝ) (c : Cube) (r : Rng) : Cube × Rng :=
  let c1 := integrate dt c
  let g := groundResponse c1 r
  let wx := wallXResponse g.1 g.2
  let wz := wallZResponse wx.1 wx.2
  (restingUpdate (wz.1.position.y - wz.1.size / 2) wz.1, wz.2)

/-- A body with the global cube size and cleared resting flag, as used in
the concrete scenarios below. -/
def mkCube (p v av rot : Vec3) : Cube :=
  { position := p, velocity := v, angularVelocity := av, rotation := rot,
    size := CUBE_SIZE, resting := false }

/-- A world state with all timers zero, as right after startup reset. -/
def mkWorld (cs : List Cube) (r : Rng) : World :=
  { cubes := cs, secondTimer := 0, secondsCount := 0, fpsTimer := 0,
    frameCount := 0, resetTimer := 0, rotateY := 0, rng := r }

/-- Scenario body for the rotation-wrap analysis: high above the ground,
with upward speed that gravity exactly cancels within one 1-second step and
angular velocity -10 deg/s about X. -/
def spinCube : Cube :=
  mkCube ⟨0, 100, 0⟩ ⟨0, 981 / 100, 0⟩ ⟨-10, 0, 0⟩ ⟨0, 0, 0⟩

/-- The `spinCube` state after one 1-second step. -/
def spinCubeStepped : Cube :=
  { position := ⟨0, 100, 0⟩, velocity := ⟨0, 0, 0⟩,
    angularVelocity := ⟨-10, 0, 0⟩, rotation := ⟨-10, 0, 0⟩,
    size := CUBE_SIZE, resting := false }

/-- Scenario body for the resting analysis: bottom face exactly on the
ground plane, at rest. -/
def restCube (px pz : ℝ) : Cube :=
  mkCube ⟨px, -(7 / 4), pz⟩ ⟨0, 0, 0⟩ ⟨0, 0, 0⟩ ⟨0, 0, 0⟩

/-- Scenario body A of the two-body separation test. -/
def cubeA : Cube := mkCube ⟨0, 1, 0⟩ ⟨0, 0, 0⟩ ⟨0, 0, 0⟩ ⟨0, 0, 0⟩

/-- Scenario body B of the two-body separation test. -/
def cubeB : Cube := mkCube ⟨3 / 10, 1, 0⟩ ⟨0, 0, 0⟩ ⟨0, 0, 0⟩ ⟨0, 0, 0⟩

/-- The state of a two-body-test cube (initially at height 1 over x0 with
everything else zero) after the per-cube phase of a step of length dt. -/
def steppedAt (x0 dt : ℝ) : Cube :=
  { position := ⟨x0 + 0 * dt, 1 + (0 - GRAVITY * dt) * dt, 0 + 0 * dt⟩,
    velocity := ⟨0, 0 - GRAVITY * dt, 0⟩, angularVelocity := ⟨0, 0, 0⟩,
    rotation := ⟨0, 0, 0⟩, size := CUBE_SIZE, resting := false }

/-- Scenario bodies for the wall-containment analysis: three resting-height
bodies piled near the +X wall, mutually overlapping so that the pairwise
pass chain-pushes the first one through the wall. -/
def wallCubeT : Cube :=
  mkCube ⟨7749 / 1000, 1, 0⟩ ⟨0, 0, 0⟩ ⟨0, 0, 0⟩ ⟨0, 0, 0⟩

/-- Second body of the wall-containment scenario. -/
def wallCubeB : Cube :=
  mkCube ⟨7729 / 1000, 101 / 100, 1 / 100⟩ ⟨0, 0, 0⟩ ⟨0, 0, 0⟩ ⟨0, 0, 0⟩

/-- Third body of the wall-containment scenario. -/
def wallCubeC : Cube :=
  mkCube ⟨387 / 50, 1, 0⟩ ⟨0, 0, 0⟩ ⟨0, 0, 0⟩ ⟨0, 0, 0⟩

/-! ## Basic facts about the embedded operations -/

theorem getD_set_self (l : List Cube) (i : ℕ) (a : Cube) (h : i < l.length) :
    (l.set i a).getD i default = a := by
  simp [List.getD, List.getElem?_set_self', h]

theorem getD_set_ne (l : List Cube) {i j : ℕ} (a : Cube) (h : i ≠ j) :
    (l.set i a).getD j default = l.getD j default := by
  simp [List.getD, List.getElem?_set_ne h]

theorem getD_oob (l : List Cube) {i : ℕ} (h : l.length ≤ i) :
    l.getD i default = default := by
  simp [List.getD, List.getElem?_eq_none h]

theorem getD_mem_or_default (l : List Cube) (i : ℕ) :
    l.getD i default ∈ l ∨ l.getD i default = default := by
  by_cases h : i < l.length
  · left
    rw [List.getD_eq_getElem l default h]
    exact List.getElem_mem h
  · right
    exact getD_oob l (le_of_not_lt h)

theorem fmod_bounds (x : ℝ) {y : ℝ} (hy : 0 < y) : -y < fmod x y ∧ fmod x y < y := by
  have hy' : y ≠ 0 := ne_of_gt hy
  unfold fmod truncToZero
  by_cases h : 0 ≤ x / y
  · rw [if_pos h]
    have h1 : (⌊x / y⌋ : ℝ) ≤ x / y := Int.floor_le _
    have h2 : x / y < ⌊x / y⌋ + 1 := Int.lt_floor_add_one _
    constructor
    · nlinarith [mul_le_mul_of_nonneg_left h1 (le_of_lt hy),
        (div_mul_cancel₀ x hy' : x / y * y = x)]
    · nlinarith [(div_mul_cancel₀ x hy' : x / y * y = x)]
  · rw [if_neg h]
    have h1 : x / y ≤ (⌈x / y⌉ : ℝ) := Int.le_ceil _
    have h2 : (⌈x / y⌉ : ℝ) < x / y + 1 := Int.ceil_lt_add_one _
    constructor
    · nlinarith [(div_mul_cancel₀ x hy' : x / y * y = x)]
    · nlinarith [(div_mul_cancel₀ x hy' : x / y * y = x)]

theorem abs_fmod_lt (x : ℝ) {y : ℝ} (hy : 0 < y) : |fmod x y| < y :=
  abs_lt.mpr (fmod_bounds x hy)

theorem fmod_eq_self {x y : ℝ} (hy : 0 < y) (h1 : -y < x) (h2 : x < y) :
    fmod x y = x := by
  unfold fmod truncToZero
  by_cases h : 0 ≤ x / y
  · rw [if_pos h]
    have hfl : ⌊x / y⌋ = 0 := by
      rw [Int.floor_eq_zero_iff, Set.mem_Ico]
      exact ⟨h, by rw [div_lt_one hy]; exact h2⟩
    rw [hfl]
    simp
  · rw [if_neg h]
    have hcl : ⌈x / y⌉ = 0 := by
      rw [Int.ceil_eq_zero_iff, Set.mem_Ioc]
      refine ⟨by rw [lt_div_iff₀ hy]; linarith, le_of_lt (lt_of_not_ge h)⟩
    rw [hcl]
    simp

theorem Vec3.length_nonneg (v : Vec3) : 0 ≤ v.length := Real.sqrt_nonneg _

theorem Vec3.length_lt_iff (v : Vec3) {t : ℝ} (ht : 0 < t) :
    v.length < t ↔ v.x * v.x + v.y * v.y + v.z * v.z < t ^ 2 := by
  rw [Vec3.length]
  exact Real.sqrt_lt' ht

theorem Vec3.length_zero : (⟨0, 0, 0⟩ : Vec3).length = 0 := by
  simp [Vec3.length]

theorem sqrt_of_sq {a b : ℝ} (hb : 0 ≤ b) (h : b ^ 2 = a) : Real.sqrt a = b := by
  rw [← h, Real.sqrt_sq hb]

theorem Vec3.sq_length {v : Vec3} :
    v.length * v.length = v.x * v.x + v.y * v.y + v.z * v.z :=
  Real.mul_self_sqrt
    (add_nonneg (add_nonneg (mul_self_nonneg _) (mul_self_nonneg _))
      (mul_self_nonneg _))

theorem Vec3.length_pos_iff (v : Vec3) :
    0 < v.length ↔ 0 < v.x * v.x + v.y * v.y + v.z * v.z := by
  rw [Vec3.length]
  exact Real.sqrt_pos

theorem Vec3.normalize_of_pos {v : Vec3} (h : 0 < v.length) :
    v.normalize = ⟨v.x / v.length, v.y / v.length, v.z / v.length⟩ := by
  rw [Vec3.normalize, if_pos h]

theorem Vec3.normalize_length {v : Vec3} (h : 0 < v.length) :
    v.normalize.length = 1 := by
  rw [Vec3.normalize_of_pos h]
  have hS : v.length * v.length = v.x * v.x + v.y * v.y + v.z * v.z :=
    Vec3.sq_length
  have hne : v.length ≠ 0 := ne_of_gt h
  rw [Vec3.length]
  have hsum : v.x / v.length * (v.x / v.length) + v.y / v.length * (v.y / v.length) +
      v.z / v.length * (v.z / v.length) = 1 := by
    field_simp
    linarith [hS]
  rw [hsum, Real.sqrt_one]

theorem Vec3.length_smul (v : Vec3) (s : ℝ) :
    (v.smul s).length = |s| * v.length := by
  rw [Vec3.smul, Vec3.length, Vec3.length]
  have : v.x * s * (v.x * s) + v.y * s * (v.y * s) + v.z * s * (v.z * s) =
      s ^ 2 * (v.x * v.x + v.y * v.y + v.z * v.z) := by ring
  rw [this, Real.sqrt_mul (by positivity), Real.sqrt_sq_eq_abs]

/-! ## Field-preservation facts for the per-cube stages -/

theorem groundResponse_size (c : Cube) (r : Rng) :
    (groundResponse c r).1.size = c.size := by
  simp only [groundResponse]
  split <;> rfl

theorem groundResponse_rotation (c : Cube) (r : Rng) :
    (groundResponse c r).1.rotation = c.rotation := by
  simp only [groundResponse]
  split <;> rfl

theorem groundResponse_pos_x (c : Cube) (r : Rng) :
    (groundResponse c r).1.position.x = c.position.x := by
  simp only [groundResponse]
  split <;> rfl

theorem groundResponse_pos_z (c : Cube) (r : Rng) :
    (groundResponse c r).1.position.z = c.position.z := by
  simp only [groundResponse]
  split <;> rfl

theorem wallXResponse_size (c : Cube) (r : Rng) :
    (wallXResponse c r).1.size = c.size := by
  simp only [wallXResponse]
  split <;> [rfl; split <;> rfl]

theorem wallXResponse_rotation (c : Cube) (r : Rng) :
    (wallXResponse c r).1.rotation = c.rotation := by
  simp only [wallXResponse]
  split <;> [rfl; split <;> rfl]

theorem wallXResponse_pos_y (c : Cube) (r : Rng) :
    (wallXResponse c r).1.position.y = c.position.y := by
  simp only [wallXResponse]
  split <;> [rfl; split <;> rfl]

theorem wallXResponse_pos_z (c : Cube) (r : Rng) :
    (wallXResponse c r).1.position.z = c.position.z := by
  simp only [wallXResponse]
  split <;> [rfl; split <;> rfl]

theorem wallZResponse_size (c : Cube) (r : Rng) :
    (wallZResponse c r).1.size = c.size := by
  simp only [wallZResponse]
  split <;> [rfl; split <;> rfl]

theorem wallZResponse_rotation (c : Cube) (r : Rng) :
    (wallZResponse c r).1.rotation = c.rotation := by
  simp only [wallZResponse]
  split <;> [rfl; split <;> rfl]

theorem wallZResponse_pos_x (c : Cube) (r : Rng) :
    (wallZResponse c r).1.position.x = c.position.x := by
  simp only [wallZResponse]
  split <;> [rfl; split <;> rfl]

theorem wallZResponse_pos_y (c : Cube) (r : Rng) :
    (wallZResponse c r).1.position.y = c.position.y := by
  simp only [wallZResponse]
  split <;> [rfl; split <;> rfl]

theorem restingUpdate_position (cb : ℝ) (c : Cube) :
    (restingUpdate cb c).position = c.position := by
  simp only [restingUpdate]
  split <;> rfl

theorem restingUpdate_rotation (cb : ℝ) (c : Cube) :
    (restingUpdate cb c).rotation = c.rotation := by
  simp only [restingUpdate]
  split <;> rfl

theorem restingUpdate_size (cb : ℝ) (c : Cube) :
    (restingUpdate cb c).size = c.size := by
  simp only [restingUpdate]
  split <;> rfl

theorem integrate_size (dt : ℝ) (c : Cube) : (integrate dt c).size = c.size := rfl

/-- After the X wall block the x coordinate lies within the walls, whenever
the body has the global cube size. -/
theorem wallXResponse_x_bounds (c : Cube) (r : Rng) (hs : c.size = CUBE_SIZE) :
    -(31 / 4) ≤ (wallXResponse c r).1.position.x ∧
    (wallXResponse c r).1.position.x ≤ 31 / 4 := by
  simp only [wallXResponse]
  split
  · rw [hs, CUBE_SIZE]
    norm_num
  · split
    · rw [hs, CUBE_SIZE]
      norm_num
    · rename_i h1 h2
      rw [hs, CUBE_SIZE] at h1 h2
      constructor <;> [nlinarith [not_lt.mp h1]; nlinarith [not_lt.mp h2]]

/-- After the Z wall block the z coordinate lies within the walls, whenever
the body has the global cube size. -/
theorem wallZResponse_z_bounds (c : Cube) (r : Rng) (hs : c.size = CUBE_SIZE) :
    -(31 / 4) ≤ (wallZResponse c r).1.position.z ∧
    (wallZResponse c r).1.position.z ≤ 31 / 4 := by
  simp only [wallZResponse]
  split
  · rw [hs, CUBE_SIZE]
    norm_num
  · split
    · rw [hs, CUBE_SIZE]
      norm_num
    · rename_i h1 h2
      rw [hs, CUBE_SIZE] at h1 h2
      constructor <;> [nlinarith [not_lt.mp h1]; nlinarith [not_lt.mp h2]]

/-! ## Claim C1 — the Vector3 operations -/

/-- Claim C1 meets a source defect: `operator+` computes the z component as
`z + other.y` (line 84) and `cross` computes the y component as
`z * other.x - x * other.y` (line 94).  At the inputs below the source's
addition and cross product both return the zero vector while the standard
componentwise addition gives (0,0,1) and the standard cross product gives
(0,-1,0).  The remaining operations match their standard definitions. -/
theorem vec3_add_cross_failing_eval :
    Vec3.add ⟨0, 0, 0⟩ ⟨0, 0, 1⟩ = ⟨0, 0, 0⟩ ∧
    (⟨(0 : ℝ) + 0, 0 + 0, 0 + 1⟩ : Vec3) ≠ ⟨0, 0, 0⟩ ∧
    Vec3.cross ⟨1, 0, 0⟩ ⟨0, 0, 1⟩ = ⟨0, 0, 0⟩ ∧
    (⟨(0 : ℝ) * 1 - 0 * 0, 0 * 0 - 1 * 1, 1 * 0 - 0 * 0⟩ : Vec3) ≠ ⟨0, 0, 0⟩ ∧
    (∀ a b : Vec3, Vec3.sub a b = ⟨a.x - b.x, a.y - b.y, a.z - b.z⟩) ∧
    (∀ (a : Vec3) (s : ℝ), Vec3.smul a s = ⟨a.x * s, a.y * s, a.z * s⟩) ∧
    (∀ a b : Vec3, Vec3.dot a b = a.x * b.x + a.y * b.y + a.z * b.z) := by
  refine ⟨?_, ?_, ?_, ?_, fun a b => rfl, fun a s => rfl, fun a b => rfl⟩
  · simp [Vec3.add]
  · intro h
    have := congrArg Vec3.z h
    norm_num at this
  · simp [Vec3.cross]
  · intro h
    have := congrArg Vec3.y h
    norm_num at this

/-! ## Claim C9 — totality of normalize -/

/-- Claim C9: `normalize` is total; on a vector of nonzero length it divides
each component by the Euclidean length, and on a zero-length vector it
returns the zero vector without dividing. -/
theorem normalize_total (v : Vec3) :
    (v.length ≠ 0 → v.normalize = ⟨v.x / v.length, v.y / v.length, v.z / v.length⟩) ∧
    (v.length = 0 → v.normalize = ⟨0, 0, 0⟩) := by
  constructor
  · intro h
    exact Vec3.normalize_of_pos (lt_of_le_of_ne (Vec3.length_nonneg v) (Ne.symm h))
  · intro h
    rw [Vec3.normalize, if_neg]
    rw [h]
    exact lt_irrefl 0

/-- Witness for C9 at concrete inputs: the zero vector maps to the zero
vector, and (3,0,4) maps to (3/5, 0, 4/5). -/
theorem normalize_total_witness :
    Vec3.normalize ⟨0, 0, 0⟩ = ⟨0, 0, 0⟩ ∧
    Vec3.normalize ⟨3, 0, 4⟩ = ⟨3 / 5, 0, 4 / 5⟩ := by
  have h5 : (⟨3, 0, 4⟩ : Vec3).length = 5 := by
    rw [Vec3.length]
    exact sqrt_of_sq (by norm_num) (by norm_num)
  constructor
  · exact (normalize_total ⟨0, 0, 0⟩).2 Vec3.length_zero
  · rw [(normalize_total ⟨3, 0, 4⟩).1 (by rw [h5]; norm_num), h5]
    norm_num

/-! ## Claim C4 — separation-axis selection -/

/-- Claim C4 is false as stated: with overlaps ox = oy = 1/10 and
oz = 3/10 the minimal overlap is 1/10, attained by the X and Y axes only,
yet the strict `<` cascade selects axis Z, whose overlap 3/10 is not
minimal (so the tie is not resolved to the later-checked of the tied
axes). -/
theorem chooseAxis_tie_counterexample :
    chooseAxis (1 / 10) (1 / 10) (3 / 10) = Axis.z ∧
    axisOverlap (chooseAxis (1 / 10) (1 / 10) (3 / 10)) (1 / 10) (1 / 10) (3 / 10) =
      3 / 10 ∧
    min (1 / 10 : ℝ) (min (1 / 10) (3 / 10)) = 1 / 10 ∧
    (3 / 10 : ℝ) ≠ 1 / 10 := by
  have hz : chooseAxis (1 / 10) (1 / 10) (3 / 10) = Axis.z := by
    rw [chooseAxis, if_neg (by norm_num), if_neg (by norm_num)]
  refine ⟨hz, ?_, by norm_num, by norm_num⟩
  rw [hz, axisOverlap]

/-- Claim C4 amended: the axis cascade picks the axis of minimum overlap
whenever that minimum is uniquely attained; an exact tie between the X and
Y overlaps always falls through to axis Z (even when Z's own overlap is
strictly larger), and any other tie of the minimal overlaps also resolves
to Z. -/
theorem chooseAxis_amended (ox oy oz : ℝ) :
    (ox < oy ∧ ox < oz →
      chooseAxis ox oy oz = Axis.x ∧
      axisOverlap (chooseAxis ox oy oz) ox oy oz = min ox (min oy oz)) ∧
    (oy < ox ∧ oy < oz →
      chooseAxis ox oy oz = Axis.y ∧
      axisOverlap (chooseAxis ox oy oz) ox oy oz = min ox (min oy oz)) ∧
    (oz < ox ∧ oz < oy →
      chooseAxis ox oy oz = Axis.z ∧
      axisOverlap (chooseAxis ox oy oz) ox oy oz = min ox (min oy oz)) ∧
    (ox = oy → chooseAxis ox oy oz = Axis.z) := by
  refine ⟨?_, ?_, ?_, ?_⟩
  · rintro ⟨h1, h2⟩
    have hx : chooseAxis ox oy oz = Axis.x := by
      rw [chooseAxis, if_pos ⟨h1, h2⟩]
    refine ⟨hx, ?_⟩
    rw [hx]
    simp only [axisOverlap]
    rw [min_eq_left (le_min h1.le h2.le)]
  · rintro ⟨h1, h2⟩
    have hy : chooseAxis ox oy oz = Axis.y := by
      rw [chooseAxis, if_neg (fun h => absurd h.1 (not_lt_of_gt h1)),
        if_pos ⟨h1, h2⟩]
    refine ⟨hy, ?_⟩
    rw [hy]
    simp only [axisOverlap]
    rw [min_eq_left h2.le, min_eq_right h1.le]
  · rintro ⟨h1, h2⟩
    have hz : chooseAxis ox oy oz = Axis.z := by
      rw [chooseAxis, if_neg (fun h => absurd h.2 (not_lt_of_gt h1)),
        if_neg (fun h => absurd h.2 (not_lt_of_gt h2))]
    refine ⟨hz, ?_⟩
    rw [hz]
    simp only [axisOverlap]
    rw [min_eq_right h2.le, min_eq_right h1.le]
  · intro h
    rw [chooseAxis, if_neg (fun hh => absurd hh.1 (by rw [h]; exact lt_irrefl oy)),
      if_neg (fun hh => absurd hh.1 (by rw [h]; exact lt_irrefl oy))]

/-- Witness for the amended C4 at concrete overlaps 1/10 < 2/10 < 3/10:
the X axis, of minimal overlap, is selected. -/
theorem chooseAxis_amended_witness :
    chooseAxis (1 / 10) (2 / 10) (3 / 10) = Axis.x ∧
    axisOverlap (chooseAxis (1 / 10) (2 / 10) (3 / 10)) (1 / 10) (2 / 10) (3 / 10) =
      min (1 / 10) (min (2 / 10) (3 / 10)) :=
  (chooseAxis_amended (1 / 10) (2 / 10) (3 / 10)).1 (by norm_num)

/-! ## Claim C6 — ground collision response -/

/-- The y component of the ground-bounce velocity: the perturbed-normal
bounce direction is `(a1, 1, 0)` normalized (the z perturbation a2 is
cancelled by the z defect of `operator+`), so the vertical velocity becomes
the old one reflected and divided by that direction's length. -/
theorem bounceVelocity_ground_y (a1 a2 : ℝ) (v : Vec3) :
    (bounceVelocity ⟨0, 1, 0⟩ ⟨a1, 0, a2⟩ v).y =
      -v.y / (⟨a1, 1, 0⟩ : Vec3).length := by
  have hL : 0 < (⟨a1, 1, 0⟩ : Vec3).length := by
    rw [Vec3.length_pos_iff]
    show 0 < a1 * a1 + 1 * 1 + 0 * 0
    nlinarith [mul_self_nonneg a1]
  have hne : (⟨a1, 1, 0⟩ : Vec3).length ≠ 0 := ne_of_gt hL
  have hadd : Vec3.add ⟨0, 1, 0⟩ ⟨a1, 0, a2⟩ = ⟨a1, 1, 0⟩ := by
    simp [Vec3.add]
  simp only [bounceVelocity]
  rw [hadd, Vec3.normalize_of_pos hL]
  simp only [Vec3.dot, Vec3.smul, Vec3.sub, Vec3.add, BOUNCE_FACTOR,
    FRICTION_FACTOR]
  field_simp

/-- When the ground collision fires, the body is clamped to sit on the
ground plane. -/
theorem groundResponse_clamped_y (c : Cube) (r : Rng)
    (h : c.position.y - c.size / 2 < GROUND_Y) :
    (groundResponse c r).1.position.y = GROUND_Y + c.size / 2 := by
  simp only [groundResponse, if_pos h]

/-- When the ground collision fires, the vertical velocity is divided by
the positive length of the perturbed bounce direction and negated. -/
theorem groundResponse_velocity_y (c : Cube) (r : Rng)
    (h : c.position.y - c.size / 2 < GROUND_Y) :
    ∃ L : ℝ, 0 < L ∧ (groundResponse c r).1.velocity.y = -c.velocity.y / L := by
  refine ⟨(⟨(r.nextBounce).1, 1, 0⟩ : Vec3).length, ?_, ?_⟩
  · rw [Vec3.length_pos_iff]
    show 0 < (r.nextBounce).1 * (r.nextBounce).1 + 1 * 1 + 0 * 0
    nlinarith [mul_self_nonneg (r.nextBounce).1]
  · simp only [groundResponse, if_pos h]
    exact bounceVelocity_ground_y _ _ _

/-- Claim C6: whenever a body's bottom face ends integration below the
ground plane, the ground collision response puts the bottom face exactly at
ground level and flips the sign of the vertical velocity (the magnitude is
only changed by the random perturbation of the bounce direction). -/
theorem groundResponse_clamp_flip (c : Cube) (r : Rng)
    (h : c.position.y - c.size / 2 < GROUND_Y) :
    (groundResponse c r).1.position.y - (groundResponse c r).1.size / 2 =
      GROUND_Y ∧
    (c.velocity.y < 0 → 0 < (groundResponse c r).1.velocity.y) ∧
    (0 < c.velocity.y → (groundResponse c r).1.velocity.y < 0) ∧
    (c.velocity.y = 0 → (groundResponse c r).1.velocity.y = 0) := by
  obtain ⟨L, hL, hvy⟩ := groundResponse_velocity_y c r h
  refine ⟨?_, ?_, ?_, ?_⟩
  · rw [groundResponse_clamped_y c r h, groundResponse_size]
    ring
  · intro hv
    rw [hvy]
    exact div_pos (by linarith) hL
  · intro hv
    rw [hvy]
    exact div_neg_of_neg_of_pos (by linarith) hL
  · intro hv
    rw [hvy, hv]
    simp

/-- Witness for C6: a unit cube body resting 1 below the ground with
downward velocity 1 is clamped to bottom = groundY and its vertical
velocity becomes positive. -/
theorem groundResponse_clamp_flip_witness :
    (groundResponse
        { position := ⟨0, -3, 0⟩, velocity := ⟨0, -1, 0⟩,
          angularVelocity := ⟨0, 0, 0⟩, rotation := ⟨0, 0, 0⟩,
          size := 1, resting := false } rng0).1.position.y -
      (groundResponse
        { position := ⟨0, -3, 0⟩, velocity := ⟨0, -1, 0⟩,
          angularVelocity := ⟨0, 0, 0⟩, rotation := ⟨0, 0, 0⟩,
          size := 1, resting := false } rng0).1.size / 2 = GROUND_Y ∧
    0 < (groundResponse
        { position := ⟨0, -3, 0⟩, velocity := ⟨0, -1, 0⟩,
          angularVelocity := ⟨0, 0, 0⟩, rotation := ⟨0, 0, 0⟩,
          size := 1, resting := false } rng0).1.velocity.y := by
  have h : (⟨0, -3, 0⟩ : Vec3).y - (1 : ℝ) / 2 < GROUND_Y := by
    rw [GROUND_Y]
    norm_num
  obtain ⟨h1, h2, _, _⟩ := groundResponse_clamp_flip
    { position := ⟨0, -3, 0⟩, velocity := ⟨0, -1, 0⟩,
      angularVelocity := ⟨0, 0, 0⟩, rotation := ⟨0, 0, 0⟩,
      size := 1, resting := false } rng0 h
  exact ⟨h1, h2 (by norm_num)⟩

/-! ## Claim C10 — the resting classification refinement -/

theorem restingUpdate_bottom_congr (cb1 cb2 : ℝ) (c : Cube)
    (h : cb1 ≤ GROUND_Y + REST_THRESHOLD ↔ cb2 ≤ GROUND_Y + REST_THRESHOLD) :
    restingUpdate cb1 c = restingUpdate cb2 c := by
  unfold restingUpdate
  by_cases hc : c.velocity.length < REST_THRESHOLD ∧
      c.angularVelocity.length < REST_THRESHOLD * 10 ∧
      cb1 ≤ GROUND_Y + REST_THRESHOLD
  · rw [if_pos hc, if_pos ⟨hc.1, hc.2.1, h.mp hc.2.2⟩]
  · rw [if_neg hc, if_neg (fun hh => hc ⟨hh.1, hh.2.1, h.mpr hh.2.2⟩)]

/-- The ground response preserves the truth of the ground-proximity test:
a clamped bottom sits exactly at the ground height, which satisfies the
threshold, and the clamp fires only when the pre-clamp bottom already
satisfied it. -/
theorem groundResponse_bottom_iff (c : Cube) (r : Rng) :
    ((groundResponse c r).1.position.y - (groundResponse c r).1.size / 2 ≤
      GROUND_Y + REST_THRESHOLD) ↔
    (c.position.y - c.size / 2 ≤ GROUND_Y + REST_THRESHOLD) := by
  by_cases h : c.position.y - c.size / 2 < GROUND_Y
  · rw [groundResponse_clamped_y c r h, groundResponse_size]
    rw [GROUND_Y, REST_THRESHOLD] at *
    constructor <;> intro _ <;> [linarith; nlinarith]
  · have : groundResponse c r = (c, r) := by
      simp only [groundResponse, if_neg h]
    rw [this]

/-- Claim C10: the resting classification, although it evaluates the
bottom-face height saved before the ground clamp, decides exactly as the
variant that recomputes the bottom face from the post-clamp position: the
two step functions agree on every input. -/
theorem stepCube_resting_refinement (dt : ℝ) (c : Cube) (r : Rng) :
    stepCube dt c r = stepCubeSpecResting dt c r := by
  simp only [stepCube, stepCubeSpecResting]
  rw [Prod.mk.injEq]
  refine ⟨?_, rfl⟩
  apply restingUpdate_bottom_congr
  rw [wallZResponse_pos_y, wallZResponse_size, wallXResponse_pos_y,
    wallXResponse_size]
  exact (groundResponse_bottom_iff (integrate dt c) r).symm

/-! ## Claim C3 — rotation wrapping -/

theorem set_set_rotation (cs : List Cube) (i j k : ℕ) (C1 C2 : Cube)
    (h1 : C1.rotation = (cs.getD i default).rotation)
    (h2 : C2.rotation = (cs.getD j default).rotation) :
    (((cs.set i C1).set j C2).getD k default).rotation =
      (cs.getD k default).rotation := by
  by_cases hj : j = k
  · subst hj
    by_cases hl : j < cs.length
    · rw [getD_set_self _ _ _ (by simpa using hl)]
      exact h2
    · rw [getD_oob ((cs.set i C1).set j C2) (by simpa using le_of_not_lt hl),
        getD_oob cs (le_of_not_lt hl)]
  · rw [getD_set_ne _ _ hj]
    by_cases hi : i = k
    · subst hi
      by_cases hl : i < cs.length
      · rw [getD_set_self _ _ _ hl]
        exact h1
      · rw [getD_oob (cs.set i C1) (by simpa using le_of_not_lt hl),
          getD_oob cs (le_of_not_lt hl)]
    · rw [getD_set_ne _ _ hi]

/-- The pairwise pass moves bodies and changes velocities but never touches
a rotation. -/
theorem resolvePair_rotation (cs : List Cube) (p : ℕ × ℕ) (r : Rng) (k : ℕ) :
    ((resolvePair cs p r).1.getD k default).rotation =
      (cs.getD k default).rotation := by
  simp only [resolvePair]
  split
  · split
    · refine set_set_rotation cs p.1 p.2 k _ _ ?_ ?_ <;> rfl
    · refine set_set_rotation cs p.1 p.2 k _ _ ?_ ?_ <;> rfl
  · rfl

theorem foldPairs_rotation (ps : List (ℕ × ℕ)) : ∀ (cs : List Cube) (r : Rng)
    (k : ℕ),
    ((ps.foldl (fun st p => resolvePair st.1 p st.2) (cs, r)).1.getD k
      default).rotation = (cs.getD k default).rotation := by
  induction ps with
  | nil => intro cs r k; rfl
  | cons p ps ih =>
    intro cs r k
    simp only [List.foldl_cons]
    rw [ih (resolvePair cs p r).1 (resolvePair cs p r).2 k]
    exact resolvePair_rotation cs p r k

theorem resolveAll_rotation (cs : List Cube) (r : Rng) (k : ℕ) :
    ((resolveAll cs r).1.getD k default).rotation =
      (cs.getD k default).rotation :=
  foldPairs_rotation (pairIdx cs.length) cs r k

theorem stepCubes_length (dt : ℝ) : ∀ (cs : List Cube) (r : Rng),
    (stepCubes dt cs r).1.length = cs.length
  | [], _ => rfl
  | c :: cs, r => by
    simp only [stepCubes, List.length_cons]
    rw [stepCubes_length dt cs]

theorem stepCubes_mem (dt : ℝ) : ∀ (cs : List Cube) (r : Rng),
    ∀ c' ∈ (stepCubes dt cs r).1, ∃ c r0, c ∈ cs ∧ c' = (stepCube dt c r0).1
  | [], r => by
    intro c' h
    simp [stepCubes] at h
  | c :: cs, r => by
    intro c' h
    simp only [stepCubes] at h
    rcases List.mem_cons.mp h with h | h
    · exact ⟨c, r, List.mem_cons_self c cs, h⟩
    · obtain ⟨c0, r0, hc0, he⟩ := stepCubes_mem dt cs _ c' h
      exact ⟨c0, r0, List.mem_cons_of_mem _ hc0, he⟩

theorem stepCube_rotation (dt : ℝ) (c : Cube) (r : Rng) :
    (stepCube dt c r).1.rotation = (integrate dt c).rotation := by
  simp only [stepCube]
  rw [restingUpdate_rotation, wallZResponse_rotation, wallXResponse_rotation,
    groundResponse_rotation]

theorem stepCube_rotation_lt (dt : ℝ) (c : Cube) (r : Rng) :
    |(stepCube dt c r).1.rotation.x| < 360 ∧
    |(stepCube dt c r).1.rotation.y| < 360 ∧
    |(stepCube dt c r).1.rotation.z| < 360 := by
  rw [stepCube_rotation]
  refine ⟨?_, ?_, ?_⟩
  · show |fmod (c.rotation.x + c.angularVelocity.x * dt) 360| < 360
    exact abs_fmod_lt _ (by norm_num)
  · show |fmod (c.rotation.y + c.angularVelocity.y * dt) 360| < 360
    exact abs_fmod_lt _ (by norm_num)
  · show |fmod (c.rotation.z + c.angularVelocity.z * dt) 360| < 360
    exact abs_fmod_lt _ (by norm_num)

theorem updatePhysics_cubes_shape (dt : ℝ) (w : World) :
    ∃ cs r, (updatePhysics dt w).cubes =
      (resolveAll (stepCubes dt cs r).1 (stepCubes dt cs r).2).1 :=
  ⟨_, _, rfl⟩

/-- Claim C3 amended: after every physics step each rotation component of
every body lies in the open interval (-360, 360) — the truncated `fmod`
keeps the sign of its dividend, so accumulated negative angles wrap into
(-360, 0] rather than [0, 360). -/
theorem updatePhysics_rotation_wrapped (dt : ℝ) (w : World) (k : ℕ) :
    |((updatePhysics dt w).cubes.getD k default).rotation.x| < 360 ∧
    |((updatePhysics dt w).cubes.getD k default).rotation.y| < 360 ∧
    |((updatePhysics dt w).cubes.getD k default).rotation.z| < 360 := by
  obtain ⟨cs, r, hw⟩ := updatePhysics_cubes_shape dt w
  rw [hw, resolveAll_rotation]
  rcases getD_mem_or_default (stepCubes dt cs r).1 k with hm | hd
  · obtain ⟨c0, r0, _, he⟩ := stepCubes_mem dt cs r _ hm
    rw [he]
    exact stepCube_rotation_lt dt c0 r0
  · rw [hd]
    show |(0 : ℝ)| < 360 ∧ |(0 : ℝ)| < 360 ∧ |(0 : ℝ)| < 360
    norm_num

/-! ## Evaluation helpers for concrete scenarios -/

theorem restingUpdate_pos (cb : ℝ) (c : Cube)
    (h : c.velocity.length < REST_THRESHOLD ∧
      c.angularVelocity.length < REST_THRESHOLD * 10 ∧
      cb ≤ GROUND_Y + REST_THRESHOLD) :
    restingUpdate cb c =
      { c with resting := true, velocity := ⟨0, 0, 0⟩,
               angularVelocity := ⟨0, 0, 0⟩ } := by
  simp only [restingUpdate, if_pos h]

theorem restingUpdate_neg (cb : ℝ) (c : Cube)
    (h : ¬(c.velocity.length < REST_THRESHOLD ∧
      c.angularVelocity.length < REST_THRESHOLD * 10 ∧
      cb ≤ GROUND_Y + REST_THRESHOLD)) :
    restingUpdate cb c = { c with resting := false } := by
  simp only [restingUpdate, if_neg h]

/-- A body that touches neither the ground nor any wall passes through the
collision blocks unchanged. -/
theorem stepCube_free (dt : ℝ) (c : Cube) (r : Rng)
    (hg : ¬((integrate dt c).position.y - (integrate dt c).size / 2 < GROUND_Y))
    (hx1 : ¬((integrate dt c).position.x - (integrate dt c).size / 2 < -8))
    (hx2 : ¬((integrate dt c).position.x + (integrate dt c).size / 2 > 8))
    (hz1 : ¬((integrate dt c).position.z - (integrate dt c).size / 2 < -8))
    (hz2 : ¬((integrate dt c).position.z + (integrate dt c).size / 2 > 8)) :
    stepCube dt c r =
      (restingUpdate ((integrate dt c).position.y - (integrate dt c).size / 2)
        (integrate dt c), r) := by
  have hgr : groundResponse (integrate dt c) r = (integrate dt c, r) := by
    simp only [groundResponse, if_neg hg]
  have hwx : wallXResponse (integrate dt c) r = (integrate dt c, r) := by
    simp only [wallXResponse, if_neg hx1, if_neg hx2]
  have hwz : wallZResponse (integrate dt c) r = (integrate dt c, r) := by
    simp only [wallZResponse, if_neg hz1, if_neg hz2]
  simp only [stepCube, hgr, hwx, hwz]

theorem pairIdx_one : pairIdx 1 = [] := rfl

theorem pairIdx_two : pairIdx 2 = [(0, 1)] := rfl

theorem pairIdx_three : pairIdx 3 = [(0, 1), (0, 2), (1, 2)] := rfl

/-- When the reset timer does not fire, the bodies produced by a step are
the two physics phases applied to the current bodies. -/
theorem updatePhysics_cubes_noReset (dt : ℝ) (w : World)
    (h : ¬(w.resetTimer + dt ≥ RESET_INTERVAL_SECONDS)) :
    (updatePhysics dt w).cubes =
      (resolveAll (stepCubes dt w.cubes w.rng).1
        (stepCubes dt w.cubes w.rng).2).1 := by
  simp only [updatePhysics, if_neg h]

/-- `resolvePair` on a non-overlapping pair is the identity. -/
theorem resolvePair_noOverlap (cs : List Cube) (p : ℕ × ℕ) (r : Rng)
    (hov : ¬overlapsAABB (cs.getD p.1 default) (cs.getD p.2 default)) :
    resolvePair cs p r = (cs, r) := by
  simp only [resolvePair, if_neg hov]

/-- `resolvePair` on an overlapping but non-converging pair separates the
bodies positionally and leaves the velocities untouched. -/
theorem resolvePair_sep (cs : List Cube) (p : ℕ × ℕ) (r : Rng)
    (hov : overlapsAABB (cs.getD p.1 default) (cs.getD p.2 default))
    (hrel : ¬(((cs.getD p.1 default).velocity.sub
        (cs.getD p.2 default).velocity).dot
        (mtvDirection (cs.getD p.1 default) (cs.getD p.2 default)) < 0)) :
    resolvePair cs p r =
      ((cs.set p.1 (sepCube1 (cs.getD p.1 default) (cs.getD p.2 default))).set
        p.2 (sepCube2 (cs.getD p.1 default) (cs.getD p.2 default)), r) := by
  have hrel' : ¬(((sepCube1 (cs.getD p.1 default) (cs.getD p.2 default)).velocity.sub
      (sepCube2 (cs.getD p.1 default) (cs.getD p.2 default)).velocity).dot
      (mtvDirection (cs.getD p.1 default) (cs.getD p.2 default)) < 0) := hrel
  simp only [resolvePair, if_pos hov, if_neg hrel']

theorem fmod360_eval {x y : ℝ} (h : x = y) (h1 : -360 < y) (h2 : y < 360) :
    fmod x 360 = y := by
  rw [h]
  exact fmod_eq_self (by norm_num) h1 h2

theorem spinCube_integrate : integrate 1 spinCube = spinCubeStepped := by
  have f1 : fmod ((0 : ℝ) + -10 * 1) 360 = -10 :=
    fmod360_eval (by norm_num) (by norm_num) (by norm_num)
  have f2 : fmod ((0 : ℝ) + 0 * 1) 360 = 0 :=
    fmod360_eval (by norm_num) (by norm_num) (by norm_num)
  simp only [integrate, spinCube, mkCube, spinCubeStepped, GRAVITY, f1, f2,
    Cube.mk.injEq, Vec3.mk.injEq]
  norm_num

theorem spinCube_step (r : Rng) : stepCube 1 spinCube r = (spinCubeStepped, r) := by
  have hg : ¬((integrate 1 spinCube).position.y -
      (integrate 1 spinCube).size / 2 < GROUND_Y) := by
    rw [spinCube_integrate]
    show ¬((100 : ℝ) - CUBE_SIZE / 2 < GROUND_Y)
    rw [CUBE_SIZE, GROUND_Y]
    norm_num
  have hx1 : ¬((integrate 1 spinCube).position.x -
      (integrate 1 spinCube).size / 2 < -8) := by
    rw [spinCube_integrate]
    show ¬((0 : ℝ) - CUBE_SIZE / 2 < -8)
    rw [CUBE_SIZE]
    norm_num
  have hx2 : ¬((integrate 1 spinCube).position.x +
      (integrate 1 spinCube).size / 2 > 8) := by
    rw [spinCube_integrate]
    show ¬((0 : ℝ) + CUBE_SIZE / 2 > 8)
    rw [CUBE_SIZE]
    norm_num
  have hz1 : ¬((integrate 1 spinCube).position.z -
      (integrate 1 spinCube).size / 2 < -8) := by
    rw [spinCube_integrate]
    show ¬((0 : ℝ) - CUBE_SIZE / 2 < -8)
    rw [CUBE_SIZE]
    norm_num
  have hz2 : ¬((integrate 1 spinCube).position.z +
      (integrate 1 spinCube).size / 2 > 8) := by
    rw [spinCube_integrate]
    show ¬((0 : ℝ) + CUBE_SIZE / 2 > 8)
    rw [CUBE_SIZE]
    norm_num
  have hnr : ¬(spinCubeStepped.velocity.length < REST_THRESHOLD ∧
      spinCubeStepped.angularVelocity.length < REST_THRESHOLD * 10 ∧
      spinCubeStepped.position.y - spinCubeStepped.size / 2 ≤
        GROUND_Y + REST_THRESHOLD) := by
    intro h
    have h3 := h.2.2
    rw [GROUND_Y, REST_THRESHOLD] at h3
    have : spinCubeStepped.position.y - spinCubeStepped.size / 2 =
        100 - 1 / 2 / 2 := by
      rw [spinCubeStepped]
      show (100 : ℝ) - CUBE_SIZE / 2 = 100 - 1 / 2 / 2
      rw [CUBE_SIZE]
    rw [this] at h3
    norm_num at h3
  rw [stepCube_free 1 spinCube r hg hx1 hx2 hz1 hz2, spinCube_integrate,
    restingUpdate_neg _ _ hnr]
  rfl

theorem resolveAll_singleton (c : Cube) (r : Rng) : resolveAll [c] r = ([c], r) := by
  simp only [resolveAll, List.length_singleton, pairIdx_one, List.foldl_nil]

/-- Claim C3 is false as stated: a body high above the ground with angular
velocity -10 deg/s about X (a value inside the post-bounce random range)
and rotation 0 has, after one step of 1 second, rotation.x = fmod(-10, 360)
= -10, which does not lie in [0, 360). -/
theorem updatePhysics_rotation_counterexample :
    ((updatePhysics 1 (mkWorld [spinCube] rng0)).cubes.getD 0
      default).rotation.x = -10 ∧ ¬(0 ≤ (-10 : ℝ)) := by
  have hnr : ¬((mkWorld [spinCube] rng0).resetTimer + 1 ≥
      RESET_INTERVAL_SECONDS) := by
    rw [RESET_INTERVAL_SECONDS]
    show ¬((0 : ℝ) + 1 ≥ 13)
    norm_num
  have hw : (updatePhysics 1 (mkWorld [spinCube] rng0)).cubes =
      [spinCubeStepped] := by
    rw [updatePhysics_cubes_noReset 1 _ hnr]
    have hcs : (mkWorld [spinCube] rng0).cubes = [spinCube] := rfl
    have hrg : (mkWorld [spinCube] rng0).rng = rng0 := rfl
    rw [hcs, hrg]
    have hss : stepCubes 1 [spinCube] rng0 = ([spinCubeStepped], rng0) := by
      simp only [stepCubes, spinCube_step]
    rw [hss, resolveAll_singleton]
  rw [hw]
  exact ⟨rfl, by norm_num⟩

/-! ## Claim C5 — resting convergence -/

/-- The ground bounce of a purely vertical velocity with zero perturbation
draws: the velocity is exactly reflected. -/
theorem bounceVelocity_vertical (vy : ℝ) :
    bounceVelocity ⟨0, 1, 0⟩ ⟨0, 0, 0⟩ ⟨0, vy, 0⟩ = ⟨0, -vy, 0⟩ := by
  have hlen : (⟨0, 1, 0⟩ : Vec3).length = 1 := by
    rw [Vec3.length, show ((0 : ℝ) * 0 + 1 * 1 + 0 * 0) = 1 by norm_num,
      Real.sqrt_one]
  have hadd : Vec3.add ⟨0, 1, 0⟩ ⟨0, 0, 0⟩ = ⟨0, 1, 0⟩ := by
    simp [Vec3.add]
  have hnorm : (⟨0, 1, 0⟩ : Vec3).normalize = ⟨0, 1, 0⟩ := by
    rw [Vec3.normalize_of_pos (by rw [hlen]; norm_num), hlen]
    norm_num
  simp only [bounceVelocity]
  rw [hadd, hnorm]
  simp only [Vec3.dot, Vec3.smul, Vec3.sub, Vec3.add, BOUNCE_FACTOR,
    FRICTION_FACTOR, Vec3.mk.injEq]
  norm_num

/-- The ground bounce of a purely vertical velocity preserves the speed
exactly, for every perturbation draw: the bounce direction is a unit
vector. -/
theorem bounceVelocity_vertical_length (a1 a2 vy : ℝ) :
    (bounceVelocity ⟨0, 1, 0⟩ ⟨a1, 0, a2⟩ ⟨0, vy, 0⟩).length = |vy| := by
  have hL : 0 < (⟨a1, 1, 0⟩ : Vec3).length := by
    rw [Vec3.length_pos_iff]
    show 0 < a1 * a1 + 1 * 1 + 0 * 0
    nlinarith [mul_self_nonneg a1]
  have hne : (⟨a1, 1, 0⟩ : Vec3).length ≠ 0 := ne_of_gt hL
  have hLL : (⟨a1, 1, 0⟩ : Vec3).length * (⟨a1, 1, 0⟩ : Vec3).length =
      a1 * a1 + 1 * 1 + 0 * 0 := Vec3.sq_length
  have hadd : Vec3.add ⟨0, 1, 0⟩ ⟨a1, 0, a2⟩ = ⟨a1, 1, 0⟩ := by
    simp [Vec3.add]
  simp only [bounceVelocity]
  rw [hadd, Vec3.normalize_of_pos hL]
  simp only [Vec3.dot, Vec3.smul, Vec3.sub, Vec3.add, BOUNCE_FACTOR,
    FRICTION_FACTOR]
  rw [Vec3.length]
  have hgen : ∀ E : ℝ, E = vy ^ 2 → Real.sqrt E = |vy| := by
    intro E hE
    rw [hE]
    exact Real.sqrt_sq_eq_abs vy
  apply hgen
  field_simp
  nlinarith [hLL]

theorem groundResponse_skip (c : Cube) (r : Rng)
    (h : ¬(c.position.y - c.size / 2 < GROUND_Y)) :
    groundResponse c r = (c, r) := by
  simp only [groundResponse, if_neg h]

theorem wallXResponse_skip (c : Cube) (r : Rng)
    (h1 : ¬(c.position.x - c.size / 2 < -8))
    (h2 : ¬(c.position.x + c.size / 2 > 8)) :
    wallXResponse c r = (c, r) := by
  simp only [wallXResponse, if_neg h1, if_neg h2]

theorem wallZResponse_skip (c : Cube) (r : Rng)
    (h1 : ¬(c.position.z - c.size / 2 < -8))
    (h2 : ¬(c.position.z + c.size / 2 > 8)) :
    wallZResponse c r = (c, r) := by
  simp only [wallZResponse, if_neg h1, if_neg h2]

theorem groundResponse_velocity (c : Cube) (r : Rng)
    (h : c.position.y - c.size / 2 < GROUND_Y) :
    (groundResponse c r).1.velocity =
      bounceVelocity ⟨0, 1, 0⟩
        ⟨(r.nextBounce).1, 0, ((r.nextBounce).2.nextBounce).1⟩ c.velocity := by
  simp only [groundResponse, if_pos h]

theorem groundResponse_angular (c : Cube) (r : Rng)
    (h : c.position.y - c.size / 2 < GROUND_Y) :
    (groundResponse c r).1.angularVelocity =
      (bounceAngular ⟨0, 1, 0⟩ c.velocity c.angularVelocity
        ((r.nextBounce).2.nextBounce).2).1 := by
  simp only [groundResponse, if_pos h]

theorem bounceAngular_keep (normal v av : Vec3) (r : Rng)
    (h : ¬(|v.dot normal| > REST_THRESHOLD)) :
    bounceAngular normal v av r = (av, r) := by
  simp only [bounceAngular, if_neg h]

/-- A body at rest with zero spin and zero rotation is unchanged by a
zero-length integration step. -/
theorem integrate_still (c : Cube) (hv : c.velocity = ⟨0, 0, 0⟩)
    (hav : c.angularVelocity = ⟨0, 0, 0⟩) (hrot : c.rotation = ⟨0, 0, 0⟩) :
    integrate 0 c = c := by
  have f0 : fmod ((0 : ℝ) + 0 * 0) 360 = 0 :=
    fmod360_eval (by norm_num) (by norm_num) (by norm_num)
  obtain ⟨pos, v, av, rot, sz, rst⟩ := c
  simp only at hv hav hrot
  subst hv
  subst hav
  subst hrot
  simp only [integrate, f0, Cube.mk.injEq, Vec3.mk.injEq]
  norm_num

/-- One per-cube step of a body starting at rest with its bottom face on
the ground plane, away from the walls: for a small enough step the body is
classified resting with exact zero velocity and angular velocity. -/
theorem stepCube_restCube (dt px pz : ℝ) (r : Rng) (hdt0 : 0 ≤ dt)
    (hb : GRAVITY * dt < REST_THRESHOLD) (hpx : |px| ≤ 31 / 4)
    (hpz : |pz| ≤ 31 / 4) :
    (stepCube dt (restCube px pz) r).1.resting = true ∧
    (stepCube dt (restCube px pz) r).1.velocity = ⟨0, 0, 0⟩ ∧
    (stepCube dt (restCube px pz) r).1.angularVelocity = ⟨0, 0, 0⟩ := by
  have habs := abs_le.mp hpx
  have habz := abs_le.mp hpz
  rcases eq_or_lt_of_le hdt0 with hdt | hdt
  · -- dt = 0: no ground contact fires, the resting test alone decides
    rw [← hdt]
    have hi : integrate 0 (restCube px pz) = restCube px pz :=
      integrate_still _ rfl rfl rfl
    have hg : groundResponse (restCube px pz) r = (restCube px pz, r) :=
      groundResponse_skip _ _ (by
        show ¬((-(7 / 4) : ℝ) - CUBE_SIZE / 2 < GROUND_Y)
        rw [CUBE_SIZE, GROUND_Y]
        norm_num)
    have hwx : wallXResponse (restCube px pz) r = (restCube px pz, r) :=
      wallXResponse_skip _ _
        (by show ¬(px - CUBE_SIZE / 2 < -8); rw [CUBE_SIZE]; intro hc; linarith [habs.1])
        (by show ¬(px + CUBE_SIZE / 2 > 8); rw [CUBE_SIZE]; intro hc; linarith [habs.2])
    have hwz : wallZResponse (restCube px pz) r = (restCube px pz, r) :=
      wallZResponse_skip _ _
        (by show ¬(pz - CUBE_SIZE / 2 < -8); rw [CUBE_SIZE]; intro hc; linarith [habz.1])
        (by show ¬(pz + CUBE_SIZE / 2 > 8); rw [CUBE_SIZE]; intro hc; linarith [habz.2])
    have hco : (restCube px pz).velocity.length < REST_THRESHOLD ∧
        (restCube px pz).angularVelocity.length < REST_THRESHOLD * 10 ∧
        (restCube px pz).position.y - (restCube px pz).size / 2 ≤
          GROUND_Y + REST_THRESHOLD := by
      refine ⟨?_, ?_, ?_⟩
      · show (⟨0, 0, 0⟩ : Vec3).length < REST_THRESHOLD
        rw [Vec3.length_zero, REST_THRESHOLD]
        norm_num
      · show (⟨0, 0, 0⟩ : Vec3).length < REST_THRESHOLD * 10
        rw [Vec3.length_zero, REST_THRESHOLD]
        norm_num
      · show -(7 / 4) - CUBE_SIZE / 2 ≤ GROUND_Y + REST_THRESHOLD
        rw [CUBE_SIZE, GROUND_Y, REST_THRESHOLD]
        norm_num
    simp only [stepCube, hi, hg, hwx, hwz]
    rw [restingUpdate_pos _ _ hco]
    exact ⟨rfl, rfl, rfl⟩
  · -- dt > 0: the body dips below the plane and bounces without reaching
    -- the rest threshold
    have hv : (integrate dt (restCube px pz)).velocity =
        ⟨0, 0 - GRAVITY * dt, 0⟩ := rfl
    have hy : (integrate dt (restCube px pz)).position.y =
        -(7 / 4) + (0 - GRAVITY * dt) * dt := rfl
    have hx : (integrate dt (restCube px pz)).position.x = px + 0 * dt := rfl
    have hz : (integrate dt (restCube px pz)).position.z = pz + 0 * dt := rfl
    have hsz : (integrate dt (restCube px pz)).size = CUBE_SIZE := rfl
    have hav : (integrate dt (restCube px pz)).angularVelocity = ⟨0, 0, 0⟩ := rfl
    have hgc : (integrate dt (restCube px pz)).position.y -
        (integrate dt (restCube px pz)).size / 2 < GROUND_Y := by
      rw [hy, hsz, CUBE_SIZE, GROUND_Y, GRAVITY]
      nlinarith [mul_pos hdt hdt]
    have hgvel : (groundResponse (integrate dt (restCube px pz)) r).1.velocity.length =
        GRAVITY * dt := by
      rw [groundResponse_velocity _ _ hgc, hv, bounceVelocity_vertical_length]
      rw [abs_of_nonpos (by rw [GRAVITY]; nlinarith)]
      ring
    have hgav : (groundResponse (integrate dt (restCube px pz)) r).1.angularVelocity =
        ⟨0, 0, 0⟩ := by
      rw [groundResponse_angular _ _ hgc, hv]
      rw [bounceAngular_keep _ _ _ _ (by
        show ¬(|Vec3.dot ⟨0, 0 - GRAVITY * dt, 0⟩ ⟨0, 1, 0⟩| > REST_THRESHOLD)
        simp only [Vec3.dot]
        rw [show ((0 : ℝ) * 0 + (0 - GRAVITY * dt) * 1 + 0 * 0) = -(GRAVITY * dt)
          by ring]
        rw [abs_neg, abs_of_nonneg (by rw [GRAVITY]; nlinarith)]
        exact not_lt.mpr (le_of_lt hb))]
      exact hav
    have hgx : (groundResponse (integrate dt (restCube px pz)) r).1.position.x =
        px + 0 * dt := by
      rw [groundResponse_pos_x]
      exact hx
    have hgz : (groundResponse (integrate dt (restCube px pz)) r).1.position.z =
        pz + 0 * dt := by
      rw [groundResponse_pos_z]
      exact hz
    have hgsz : (groundResponse (integrate dt (restCube px pz)) r).1.size =
        CUBE_SIZE := by
      rw [groundResponse_size]
      exact hsz
    have hwx : wallXResponse (groundResponse (integrate dt (restCube px pz)) r).1
        (groundResponse (integrate dt (restCube px pz)) r).2 =
        ((groundResponse (integrate dt (restCube px pz)) r).1,
         (groundResponse (integrate dt (restCube px pz)) r).2) :=
      wallXResponse_skip _ _
        (by rw [hgx, hgsz, CUBE_SIZE]; intro hc; nlinarith [habs.1])
        (by rw [hgx, hgsz, CUBE_SIZE]; intro hc; nlinarith [habs.2])
    have hwz : wallZResponse (groundResponse (integrate dt (restCube px pz)) r).1
        (groundResponse (integrate dt (restCube px pz)) r).2 =
        ((groundResponse (integrate dt (restCube px pz)) r).1,
         (groundResponse (integrate dt (restCube px pz)) r).2) :=
      wallZResponse_skip _ _
        (by rw [hgz, hgsz, CUBE_SIZE]; intro hc; nlinarith [habz.1])
        (by rw [hgz, hgsz, CUBE_SIZE]; intro hc; nlinarith [habz.2])
    have hco : (groundResponse (integrate dt (restCube px pz)) r).1.velocity.length <
          REST_THRESHOLD ∧
        (groundResponse (integrate dt (restCube px pz)) r).1.angularVelocity.length <
          REST_THRESHOLD * 10 ∧
        (integrate dt (restCube px pz)).position.y -
          (integrate dt (restCube px pz)).size / 2 ≤
          GROUND_Y + REST_THRESHOLD := by
      refine ⟨?_, ?_, ?_⟩
      · rw [hgvel]
        exact hb
      · rw [hgav, Vec3.length_zero, REST_THRESHOLD]
        norm_num
      · rw [hy, hsz, CUBE_SIZE, GROUND_Y, REST_THRESHOLD, GRAVITY]
        nlinarith [mul_pos hdt hdt]
    simp only [stepCube, hwx, hwz]
    rw [restingUpdate_pos _ _ hco]
    exact ⟨rfl, rfl, rfl⟩

/-- Claim C5 amended: a single body whose bottom face starts exactly on the
ground plane with zero velocity and zero angular velocity is, after one
step of any deltaTime dt with 0 ≤ dt and GRAVITY * dt < REST_THRESHOLD,
classified resting with velocity and angular velocity exactly zero.  (For
larger steps the post-bounce speed GRAVITY * dt alone already exceeds the
rest threshold and the body is not resting.) -/
theorem updatePhysics_resting_amended (dt px pz : ℝ) (r : Rng)
    (hdt0 : 0 ≤ dt) (hb : GRAVITY * dt < REST_THRESHOLD)
    (hpx : |px| ≤ 31 / 4) (hpz : |pz| ≤ 31 / 4) :
    ((updatePhysics dt (mkWorld [restCube px pz] r)).cubes.getD 0
      default).resting = true ∧
    ((updatePhysics dt (mkWorld [restCube px pz] r)).cubes.getD 0
      default).velocity = ⟨0, 0, 0⟩ ∧
    ((updatePhysics dt (mkWorld [restCube px pz] r)).cubes.getD 0
      default).angularVelocity = ⟨0, 0, 0⟩ := by
  have hb' := hb
  rw [GRAVITY, REST_THRESHOLD] at hb'
  have hnr : ¬((mkWorld [restCube px pz] r).resetTimer + dt ≥
      RESET_INTERVAL_SECONDS) := by
    show ¬((0 : ℝ) + dt ≥ RESET_INTERVAL_SECONDS)
    rw [RESET_INTERVAL_SECONDS]
    intro hcon
    nlinarith
  have hcubes : (updatePhysics dt (mkWorld [restCube px pz] r)).cubes =
      [(stepCube dt (restCube px pz) r).1] := by
    rw [updatePhysics_cubes_noReset _ _ hnr]
    have hcs : (mkWorld [restCube px pz] r).cubes = [restCube px pz] := rfl
    have hrg : (mkWorld [restCube px pz] r).rng = r := rfl
    rw [hcs, hrg]
    have hss : stepCubes dt [restCube px pz] r =
        ([(stepCube dt (restCube px pz) r).1],
         (stepCube dt (restCube px pz) r).2) := by
      simp only [stepCubes]
    rw [hss, resolveAll_singleton]
  rw [hcubes]
  exact stepCube_restCube dt px pz r hdt0 hb hpx hpz

/-- Witness for the amended C5 at dt = 0 and the origin grid cell. -/
theorem updatePhysics_resting_amended_witness :
    ((updatePhysics 0 (mkWorld [restCube 0 0] rng0)).cubes.getD 0
      default).resting = true ∧
    ((updatePhysics 0 (mkWorld [restCube 0 0] rng0)).cubes.getD 0
      default).velocity = ⟨0, 0, 0⟩ ∧
    ((updatePhysics 0 (mkWorld [restCube 0 0] rng0)).cubes.getD 0
      default).angularVelocity = ⟨0, 0, 0⟩ :=
  updatePhysics_resting_amended 0 0 0 rng0 le_rfl
    (by rw [GRAVITY, REST_THRESHOLD]; norm_num) (by norm_num) (by norm_num)

theorem bounceAngular_draw (normal v av : Vec3) (r : Rng)
    (h : |v.dot normal| > REST_THRESHOLD) :
    bounceAngular normal v av r = r.nextAngular3 := by
  simp only [bounceAngular, if_pos h]

/-- After a 1-second step from rest on the ground, the bounce rebuilds a
speed of GRAVITY * 1 = 9.81, far above the rest threshold, so the body is
not classified resting. -/
theorem restCube_step1_resting : (stepCube 1 (restCube 0 0) rng0).1.resting = false := by
  have hv1 : (integrate 1 (restCube 0 0)).velocity = ⟨0, 0 - GRAVITY * 1, 0⟩ := rfl
  have hy1 : (integrate 1 (restCube 0 0)).position.y =
      -(7 / 4) + (0 - GRAVITY * 1) * 1 := rfl
  have hx1 : (integrate 1 (restCube 0 0)).position.x = 0 + 0 * 1 := rfl
  have hz1 : (integrate 1 (restCube 0 0)).position.z = 0 + 0 * 1 := rfl
  have hsz1 : (integrate 1 (restCube 0 0)).size = CUBE_SIZE := rfl
  have hgc : (integrate 1 (restCube 0 0)).position.y -
      (integrate 1 (restCube 0 0)).size / 2 < GROUND_Y := by
    rw [hy1, hsz1, CUBE_SIZE, GROUND_Y, GRAVITY]
    norm_num
  have hgvel : (groundResponse (integrate 1 (restCube 0 0)) rng0).1.velocity.length =
      GRAVITY * 1 := by
    rw [groundResponse_velocity _ _ hgc, hv1, bounceVelocity_vertical_length]
    rw [abs_of_nonpos (by rw [GRAVITY]; norm_num)]
    ring
  have hgx : (groundResponse (integrate 1 (restCube 0 0)) rng0).1.position.x =
      0 + 0 * 1 := by
    rw [groundResponse_pos_x]
    exact hx1
  have hgz : (groundResponse (integrate 1 (restCube 0 0)) rng0).1.position.z =
      0 + 0 * 1 := by
    rw [groundResponse_pos_z]
    exact hz1
  have hgsz : (groundResponse (integrate 1 (restCube 0 0)) rng0).1.size =
      CUBE_SIZE := by
    rw [groundResponse_size]
    exact hsz1
  have hwx : wallXResponse (groundResponse (integrate 1 (restCube 0 0)) rng0).1
      (groundResponse (integrate 1 (restCube 0 0)) rng0).2 =
      ((groundResponse (integrate 1 (restCube 0 0)) rng0).1,
       (groundResponse (integrate 1 (restCube 0 0)) rng0).2) :=
    wallXResponse_skip _ _
      (by rw [hgx, hgsz, CUBE_SIZE]; norm_num)
      (by rw [hgx, hgsz, CUBE_SIZE]; norm_num)
  have hwz : wallZResponse (groundResponse (integrate 1 (restCube 0 0)) rng0).1
      (groundResponse (integrate 1 (restCube 0 0)) rng0).2 =
      ((groundResponse (integrate 1 (restCube 0 0)) rng0).1,
       (groundResponse (integrate 1 (restCube 0 0)) rng0).2) :=
    wallZResponse_skip _ _
      (by rw [hgz, hgsz, CUBE_SIZE]; norm_num)
      (by rw [hgz, hgsz, CUBE_SIZE]; norm_num)
  have hnr : ¬((groundResponse (integrate 1 (restCube 0 0)) rng0).1.velocity.length <
        REST_THRESHOLD ∧
      (groundResponse (integrate 1 (restCube 0 0)) rng0).1.angularVelocity.length <
        REST_THRESHOLD * 10 ∧
      (integrate 1 (restCube 0 0)).position.y -
        (integrate 1 (restCube 0 0)).size / 2 ≤
        GROUND_Y + REST_THRESHOLD) := by
    intro h
    have h1 := h.1
    rw [hgvel, GRAVITY, REST_THRESHOLD] at h1
    norm_num at h1
  simp only [stepCube, hwx, hwz]
  rw [restingUpdate_neg _ _ hnr]

/-- Claim C5 is false as stated: with deltaTime = 1 second, the same body
bounces back to speed 9.81 within the step and is not classified resting
(so the claim does not hold for every deltaTime). -/
theorem updatePhysics_resting_counterexample :
    ¬(((updatePhysics 1 (mkWorld [restCube 0 0] rng0)).cubes.getD 0
      default).resting = true) := by
  have hnr : ¬((mkWorld [restCube 0 0] rng0).resetTimer + 1 ≥
      RESET_INTERVAL_SECONDS) := by
    show ¬((0 : ℝ) + 1 ≥ RESET_INTERVAL_SECONDS)
    rw [RESET_INTERVAL_SECONDS]
    norm_num
  have hcubes : (updatePhysics 1 (mkWorld [restCube 0 0] rng0)).cubes =
      [(stepCube 1 (restCube 0 0) rng0).1] := by
    rw [updatePhysics_cubes_noReset _ _ hnr]
    have hcs : (mkWorld [restCube 0 0] rng0).cubes = [restCube 0 0] := rfl
    have hrg : (mkWorld [restCube 0 0] rng0).rng = rng0 := rfl
    rw [hcs, hrg]
    have hss : stepCubes 1 [restCube 0 0] rng0 =
        ([(stepCube 1 (restCube 0 0) rng0).1],
         (stepCube 1 (restCube 0 0) rng0).2) := by
      simp only [stepCubes]
    rw [hss, resolveAll_singleton]
  rw [hcubes]
  rw [show ([(stepCube 1 (restCube 0 0) rng0).1].getD 0 default) =
    (stepCube 1 (restCube 0 0) rng0).1 from rfl]
  rw [restCube_step1_resting]
  exact Bool.false_ne_true

/-! ## Claim C7 — the two-body end-to-end scenario -/

theorem Vec3.zero_dot (d : Vec3) : Vec3.dot ⟨0, 0, 0⟩ d = 0 := by
  simp [Vec3.dot]

/-- The per-cube phase on a two-body-test cube: pure gravity integration,
no collision blocks fire, not resting. -/
theorem stepCube_highCube (dt x0 : ℝ) (r : Rng) (hdt0 : 0 ≤ dt)
    (hdt1 : dt ≤ 1 / 2) (hx : |x0| ≤ 7) :
    stepCube dt (mkCube ⟨x0, 1, 0⟩ ⟨0, 0, 0⟩ ⟨0, 0, 0⟩ ⟨0, 0, 0⟩) r =
      (steppedAt x0 dt, r) := by
  have habs := abs_le.mp hx
  have hdd : dt * dt ≤ 1 / 4 := by nlinarith
  have f0 : fmod ((0 : ℝ) + 0 * dt) 360 = 0 :=
    fmod360_eval (by ring) (by norm_num) (by norm_num)
  have hi : integrate dt (mkCube ⟨x0, 1, 0⟩ ⟨0, 0, 0⟩ ⟨0, 0, 0⟩ ⟨0, 0, 0⟩) =
      steppedAt x0 dt := by
    simp only [integrate, mkCube, steppedAt, f0, Cube.mk.injEq, Vec3.mk.injEq]
  have hg : ¬((integrate dt (mkCube ⟨x0, 1, 0⟩ ⟨0, 0, 0⟩ ⟨0, 0, 0⟩ ⟨0, 0, 0⟩)).position.y -
      (integrate dt (mkCube ⟨x0, 1, 0⟩ ⟨0, 0, 0⟩ ⟨0, 0, 0⟩ ⟨0, 0, 0⟩)).size / 2 <
      GROUND_Y) := by
    rw [hi]
    show ¬((1 : ℝ) + (0 - GRAVITY * dt) * dt - CUBE_SIZE / 2 < GROUND_Y)
    rw [CUBE_SIZE, GROUND_Y, GRAVITY]
    intro hc
    nlinarith
  have hx1 : ¬((integrate dt (mkCube ⟨x0, 1, 0⟩ ⟨0, 0, 0⟩ ⟨0, 0, 0⟩ ⟨0, 0, 0⟩)).position.x -
      (integrate dt (mkCube ⟨x0, 1, 0⟩ ⟨0, 0, 0⟩ ⟨0, 0, 0⟩ ⟨0, 0, 0⟩)).size / 2 < -8) := by
    rw [hi]
    show ¬(x0 + 0 * dt - CUBE_SIZE / 2 < -8)
    rw [CUBE_SIZE]
    intro hc
    nlinarith
  have hx2 : ¬((integrate dt (mkCube ⟨x0, 1, 0⟩ ⟨0, 0, 0⟩ ⟨0, 0, 0⟩ ⟨0, 0, 0⟩)).position.x +
      (integrate dt (mkCube ⟨x0, 1, 0⟩ ⟨0, 0, 0⟩ ⟨0, 0, 0⟩ ⟨0, 0, 0⟩)).size / 2 > 8) := by
    rw [hi]
    show ¬(x0 + 0 * dt + CUBE_SIZE / 2 > 8)
    rw [CUBE_SIZE]
    intro hc
    nlinarith
  have hz1 : ¬((integrate dt (mkCube ⟨x0, 1, 0⟩ ⟨0, 0, 0⟩ ⟨0, 0, 0⟩ ⟨0, 0, 0⟩)).position.z -
      (integrate dt (mkCube ⟨x0, 1, 0⟩ ⟨0, 0, 0⟩ ⟨0, 0, 0⟩ ⟨0, 0, 0⟩)).size / 2 < -8) := by
    rw [hi]
    show ¬((0 : ℝ) + 0 * dt - CUBE_SIZE / 2 < -8)
    rw [CUBE_SIZE]
    intro hc
    nlinarith
  have hz2 : ¬((integrate dt (mkCube ⟨x0, 1, 0⟩ ⟨0, 0, 0⟩ ⟨0, 0, 0⟩ ⟨0, 0, 0⟩)).position.z +
      (integrate dt (mkCube ⟨x0, 1, 0⟩ ⟨0, 0, 0⟩ ⟨0, 0, 0⟩ ⟨0, 0, 0⟩)).size / 2 > 8) := by
    rw [hi]
    show ¬((0 : ℝ) + 0 * dt + CUBE_SIZE / 2 > 8)
    rw [CUBE_SIZE]
    intro hc
    nlinarith
  have hnr : ¬((steppedAt x0 dt).velocity.length < REST_THRESHOLD ∧
      (steppedAt x0 dt).angularVelocity.length < REST_THRESHOLD * 10 ∧
      (steppedAt x0 dt).position.y - (steppedAt x0 dt).size / 2 ≤
        GROUND_Y + REST_THRESHOLD) := by
    intro hc
    have h3 : (1 : ℝ) + (0 - GRAVITY * dt) * dt - CUBE_SIZE / 2 ≤
        GROUND_Y + REST_THRESHOLD := hc.2.2
    rw [CUBE_SIZE, GROUND_Y, REST_THRESHOLD, GRAVITY] at h3
    nlinarith
  rw [stepCube_free dt _ r hg hx1 hx2 hz1 hz2, hi,
    restingUpdate_neg _ _ hnr]
  rfl

/-- Claim C7: from bodies A at (0,1,0) and B at (0.3,1,0) of size 0.5 with
zero velocities (X-overlap 0.2), one step of an ordinary duration
(0 ≤ dt ≤ 1/2 s, so that nothing reaches the ground within the step)
separates the X-extents, and because the bodies' relative velocity along
the separation axis is zero no impulse is applied: both velocities are
exactly the result of gravity integration. -/
theorem updatePhysics_two_body_separation (dt : ℝ) (r : Rng) (hdt0 : 0 ≤ dt)
    (hdt1 : dt ≤ 1 / 2) :
    maxX ((updatePhysics dt (mkWorld [cubeA, cubeB] r)).cubes.getD 0 default) <
      minX ((updatePhysics dt (mkWorld [cubeA, cubeB] r)).cubes.getD 1 default) ∧
    ((updatePhysics dt (mkWorld [cubeA, cubeB] r)).cubes.getD 0 default).velocity =
      ⟨0, 0 - GRAVITY * dt, 0⟩ ∧
    ((updatePhysics dt (mkWorld [cubeA, cubeB] r)).cubes.getD 1 default).velocity =
      ⟨0, 0 - GRAVITY * dt, 0⟩ := by
  have hA : stepCube dt cubeA r = (steppedAt 0 dt, r) :=
    stepCube_highCube dt 0 r hdt0 hdt1 (by norm_num)
  have hB : stepCube dt cubeB r = (steppedAt (3 / 10) dt, r) :=
    stepCube_highCube dt (3 / 10) r hdt0 hdt1
      (by rw [abs_of_nonneg (by norm_num : (0 : ℝ) ≤ 3 / 10)]; norm_num)
  have hnr : ¬((mkWorld [cubeA, cubeB] r).resetTimer + dt ≥
      RESET_INTERVAL_SECONDS) := by
    show ¬((0 : ℝ) + dt ≥ RESET_INTERVAL_SECONDS)
    rw [RESET_INTERVAL_SECONDS]
    intro hc
    nlinarith
  -- pairwise data for the two stepped bodies
  have hox : overlapX (steppedAt 0 dt) (steppedAt (3 / 10) dt) = 1 / 5 := by
    simp only [overlapX, maxX, minX, steppedAt, CUBE_SIZE]
    rw [min_eq_left (by linarith), max_eq_right (by linarith)]
    ring
  have hoy : overlapY (steppedAt 0 dt) (steppedAt (3 / 10) dt) = 1 / 2 := by
    simp only [overlapY, maxY, minY, steppedAt, CUBE_SIZE]
    rw [min_self, max_self]
    ring
  have hoz : overlapZ (steppedAt 0 dt) (steppedAt (3 / 10) dt) = 1 / 2 := by
    simp only [overlapZ, maxZ, minZ, steppedAt, CUBE_SIZE]
    rw [min_self, max_self]
    ring
  have hax : pairAxis (steppedAt 0 dt) (steppedAt (3 / 10) dt) = Axis.x := by
    rw [pairAxis, hox, hoy, hoz, chooseAxis, if_pos (by norm_num)]
  have hdir : mtvDirection (steppedAt 0 dt) (steppedAt (3 / 10) dt) =
      ⟨-1, 0, 0⟩ := by
    simp only [mtvDirection, hax]
    rw [if_neg (by show ¬((0 : ℝ) + 0 * dt > 3 / 10 + 0 * dt); intro hc; linarith)]
  have hamt : separationAmount (steppedAt 0 dt) (steppedAt (3 / 10) dt) =
      101 / 1000 := by
    simp only [separationAmount, hax, axisOverlap, hox]
    norm_num
  have hov : overlapsAABB (steppedAt 0 dt) (steppedAt (3 / 10) dt) := by
    simp only [overlapsAABB, maxX, minX, maxY, minY, maxZ, minZ, steppedAt,
      CUBE_SIZE]
    refine ⟨⟨by linarith, by linarith⟩, ⟨by linarith, by linarith⟩,
      ⟨by linarith, by linarith⟩⟩
  have hrel : ¬(((steppedAt 0 dt).velocity.sub
      (steppedAt (3 / 10) dt).velocity).dot
      (mtvDirection (steppedAt 0 dt) (steppedAt (3 / 10) dt)) < 0) := by
    rw [show (steppedAt 0 dt).velocity.sub (steppedAt (3 / 10) dt).velocity =
      ⟨0, 0, 0⟩ from by simp [steppedAt, Vec3.sub]]
    rw [Vec3.zero_dot]
    exact lt_irrefl 0
  have hcubes : (updatePhysics dt (mkWorld [cubeA, cubeB] r)).cubes =
      [sepCube1 (steppedAt 0 dt) (steppedAt (3 / 10) dt),
       sepCube2 (steppedAt 0 dt) (steppedAt (3 / 10) dt)] := by
    rw [updatePhysics_cubes_noReset _ _ hnr]
    have hcs : (mkWorld [cubeA, cubeB] r).cubes = [cubeA, cubeB] := rfl
    have hrg : (mkWorld [cubeA, cubeB] r).rng = r := rfl
    rw [hcs, hrg]
    have hss : stepCubes dt [cubeA, cubeB] r =
        ([steppedAt 0 dt, steppedAt (3 / 10) dt], r) := by
      simp only [stepCubes, hA, hB]
    rw [hss]
    have hlen : ([steppedAt 0 dt, steppedAt (3 / 10) dt] : List Cube).length = 2 :=
      rfl
    rw [resolveAll, hlen, pairIdx_two]
    simp only [List.foldl_cons, List.foldl_nil]
    have hrp := resolvePair_sep [steppedAt 0 dt, steppedAt (3 / 10) dt] (0, 1) r
      hov hrel
    rw [hrp]
    rfl
  rw [hcubes]
  have hget0 : ([sepCube1 (steppedAt 0 dt) (steppedAt (3 / 10) dt),
      sepCube2 (steppedAt 0 dt) (steppedAt (3 / 10) dt)] : List Cube).getD 0
      default = sepCube1 (steppedAt 0 dt) (steppedAt (3 / 10) dt) := rfl
  have hget1 : ([sepCube1 (steppedAt 0 dt) (steppedAt (3 / 10) dt),
      sepCube2 (steppedAt 0 dt) (steppedAt (3 / 10) dt)] : List Cube).getD 1
      default = sepCube2 (steppedAt 0 dt) (steppedAt (3 / 10) dt) := rfl
  rw [hget0, hget1]
  refine ⟨?_, ?_, ?_⟩
  · rw [maxX, minX]
    rw [show (sepCube1 (steppedAt 0 dt) (steppedAt (3 / 10) dt)).size =
      CUBE_SIZE from rfl]
    rw [show (sepCube2 (steppedAt 0 dt) (steppedAt (3 / 10) dt)).size =
      CUBE_SIZE from rfl]
    rw [show (sepCube1 (steppedAt 0 dt) (steppedAt (3 / 10) dt)).position.x =
      (steppedAt 0 dt).position.x +
        (mtvDirection (steppedAt 0 dt) (steppedAt (3 / 10) dt)).x *
        separationAmount (steppedAt 0 dt) (steppedAt (3 / 10) dt) from rfl]
    rw [show (sepCube2 (steppedAt 0 dt) (steppedAt (3 / 10) dt)).position.x =
      (steppedAt (3 / 10) dt).position.x -
        (mtvDirection (steppedAt 0 dt) (steppedAt (3 / 10) dt)).x *
        separationAmount (steppedAt 0 dt) (steppedAt (3 / 10) dt) from rfl]
    rw [hdir, hamt]
    rw [show (steppedAt 0 dt).position.x = 0 + 0 * dt from rfl]
    rw [show (steppedAt (3 / 10) dt).position.x = 3 / 10 + 0 * dt from rfl]
    rw [CUBE_SIZE]
    show (0 : ℝ) + 0 * dt + -1 * (101 / 1000) + 1 / 2 / 2 <
      3 / 10 + 0 * dt - -1 * (101 / 1000) - 1 / 2 / 2
    linarith
  · rfl
  · rfl

/-- Witness for C7 at dt = 0 and the all-zero random source. -/
theorem updatePhysics_two_body_separation_witness :
    maxX ((updatePhysics 0 (mkWorld [cubeA, cubeB] rng0)).cubes.getD 0 default) <
      minX ((updatePhysics 0 (mkWorld [cubeA, cubeB] rng0)).cubes.getD 1 default) ∧
    ((updatePhysics 0 (mkWorld [cubeA, cubeB] rng0)).cubes.getD 0 default).velocity =
      ⟨0, 0 - GRAVITY * 0, 0⟩ ∧
    ((updatePhysics 0 (mkWorld [cubeA, cubeB] rng0)).cubes.getD 1 default).velocity =
      ⟨0, 0 - GRAVITY * 0, 0⟩ :=
  updatePhysics_two_body_separation 0 rng0 le_rfl (by norm_num)

/-! ## Claim C2 — wall containment -/

/-- A motionless, airborne, in-bounds body passes the per-cube phase of a
zero-length step unchanged except for the recomputed resting flag. -/
theorem stepCube_still (c : Cube) (r : Rng)
    (hv : c.velocity = ⟨0, 0, 0⟩) (hav : c.angularVelocity = ⟨0, 0, 0⟩)
    (hrot : c.rotation = ⟨0, 0, 0⟩)
    (hg : ¬(c.position.y - c.size / 2 < GROUND_Y))
    (hx1 : ¬(c.position.x - c.size / 2 < -8))
    (hx2 : ¬(c.position.x + c.size / 2 > 8))
    (hz1 : ¬(c.position.z - c.size / 2 < -8))
    (hz2 : ¬(c.position.z + c.size / 2 > 8))
    (hb : ¬(c.position.y - c.size / 2 ≤ GROUND_Y + REST_THRESHOLD)) :
    stepCube 0 c r = ({ c with resting := false }, r) := by
  have hi : integrate 0 c = c := integrate_still c hv hav hrot
  have hg' : ¬((integrate 0 c).position.y - (integrate 0 c).size / 2 <
      GROUND_Y) := by
    rw [hi]
    exact hg
  have hx1' : ¬((integrate 0 c).position.x - (integrate 0 c).size / 2 < -8) := by
    rw [hi]
    exact hx1
  have hx2' : ¬((integrate 0 c).position.x + (integrate 0 c).size / 2 > 8) := by
    rw [hi]
    exact hx2
  have hz1' : ¬((integrate 0 c).position.z - (integrate 0 c).size / 2 < -8) := by
    rw [hi]
    exact hz1
  have hz2' : ¬((integrate 0 c).position.z + (integrate 0 c).size / 2 > 8) := by
    rw [hi]
    exact hz2
  rw [stepCube_free 0 c r hg' hx1' hx2' hz1' hz2', hi,
    restingUpdate_neg _ _ (fun hc => hb hc.2.2)]

/-- Claim C2 is false as stated: from three motionless overlapping bodies
piled against the +X wall (all within bounds, so no wall clamp fires), a
single zero-length step lets the pairwise separation pass chain-push the
first body to x = 8.116, beyond the 8.0 half-extent by far more than any
floating tolerance. -/
theorem updatePhysics_wall_counterexample :
    ((updatePhysics 0 (mkWorld [wallCubeT, wallCubeB, wallCubeC]
      rng0)).cubes.getD 0 default).position.x = 2029 / 250 ∧
    ¬((2029 / 250 : ℝ) ≤ 8) := by
  have hT : stepCube 0 wallCubeT rng0 = (wallCubeT, rng0) := by
    rw [stepCube_still wallCubeT rng0 rfl rfl rfl
      (by show ¬((1 : ℝ) - CUBE_SIZE / 2 < GROUND_Y); rw [CUBE_SIZE, GROUND_Y]; norm_num)
      (by show ¬((7749 / 1000 : ℝ) - CUBE_SIZE / 2 < -8); rw [CUBE_SIZE]; norm_num)
      (by show ¬((7749 / 1000 : ℝ) + CUBE_SIZE / 2 > 8); rw [CUBE_SIZE]; norm_num)
      (by show ¬((0 : ℝ) - CUBE_SIZE / 2 < -8); rw [CUBE_SIZE]; norm_num)
      (by show ¬((0 : ℝ) + CUBE_SIZE / 2 > 8); rw [CUBE_SIZE]; norm_num)
      (by show ¬((1 : ℝ) - CUBE_SIZE / 2 ≤ GROUND_Y + REST_THRESHOLD);
          rw [CUBE_SIZE, GROUND_Y, REST_THRESHOLD]; norm_num)]
    rfl
  have hB : stepCube 0 wallCubeB rng0 = (wallCubeB, rng0) := by
    rw [stepCube_still wallCubeB rng0 rfl rfl rfl
      (by show ¬((101 / 100 : ℝ) - CUBE_SIZE / 2 < GROUND_Y); rw [CUBE_SIZE, GROUND_Y]; norm_num)
      (by show ¬((7729 / 1000 : ℝ) - CUBE_SIZE / 2 < -8); rw [CUBE_SIZE]; norm_num)
      (by show ¬((7729 / 1000 : ℝ) + CUBE_SIZE / 2 > 8); rw [CUBE_SIZE]; norm_num)
      (by show ¬((1 / 100 : ℝ) - CUBE_SIZE / 2 < -8); rw [CUBE_SIZE]; norm_num)
      (by show ¬((1 / 100 : ℝ) + CUBE_SIZE / 2 > 8); rw [CUBE_SIZE]; norm_num)
      (by show ¬((101 / 100 : ℝ) - CUBE_SIZE / 2 ≤ GROUND_Y + REST_THRESHOLD);
          rw [CUBE_SIZE, GROUND_Y, REST_THRESHOLD]; norm_num)]
    rfl
  have hC : stepCube 0 wallCubeC rng0 = (wallCubeC, rng0) := by
    rw [stepCube_still wallCubeC rng0 rfl rfl rfl
      (by show ¬((1 : ℝ) - CUBE_SIZE / 2 < GROUND_Y); rw [CUBE_SIZE, GROUND_Y]; norm_num)
      (by show ¬((387 / 50 : ℝ) - CUBE_SIZE / 2 < -8); rw [CUBE_SIZE]; norm_num)
      (by show ¬((387 / 50 : ℝ) + CUBE_SIZE / 2 > 8); rw [CUBE_SIZE]; norm_num)
      (by show ¬((0 : ℝ) - CUBE_SIZE / 2 < -8); rw [CUBE_SIZE]; norm_num)
      (by show ¬((0 : ℝ) + CUBE_SIZE / 2 > 8); rw [CUBE_SIZE]; norm_num)
      (by show ¬((1 : ℝ) - CUBE_SIZE / 2 ≤ GROUND_Y + REST_THRESHOLD);
          rw [CUBE_SIZE, GROUND_Y, REST_THRESHOLD]; norm_num)]
    rfl
  -- pair (0, 1)
  have hov01 : overlapsAABB wallCubeT wallCubeB := by
    simp only [overlapsAABB, maxX, minX, maxY, minY, maxZ, minZ, wallCubeT,
      wallCubeB, mkCube, CUBE_SIZE]
    norm_num
  have hrel01 : ¬((wallCubeT.velocity.sub wallCubeB.velocity).dot
      (mtvDirection wallCubeT wallCubeB) < 0) := by
    rw [show wallCubeT.velocity.sub wallCubeB.velocity = ⟨0, 0, 0⟩ from by
      simp [wallCubeT, wallCubeB, mkCube, Vec3.sub], Vec3.zero_dot]
    exact lt_irrefl 0
  have hsep011 : sepCube1 wallCubeT wallCubeB =
      mkCube ⟨799 / 100, 1, 0⟩ ⟨0, 0, 0⟩ ⟨0, 0, 0⟩ ⟨0, 0, 0⟩ := by
    simp only [sepCube1, mtvDirection, pairAxis, chooseAxis, separationAmount,
      axisOverlap, overlapX, overlapY, overlapZ, maxX, minX, maxY, minY, maxZ,
      minZ, wallCubeT, wallCubeB, mkCube, CUBE_SIZE, Vec3.add, Vec3.smul,
      Cube.mk.injEq, Vec3.mk.injEq]
    norm_num [min_def, max_def]
  have hsep012 : sepCube2 wallCubeT wallCubeB =
      mkCube ⟨936 / 125, 101 / 100, 1 / 100⟩ ⟨0, 0, 0⟩ ⟨0, 0, 0⟩ ⟨0, 0, 0⟩ := by
    simp only [sepCube2, mtvDirection, pairAxis, chooseAxis, separationAmount,
      axisOverlap, overlapX, overlapY, overlapZ, maxX, minX, maxY, minY, maxZ,
      minZ, wallCubeT, wallCubeB, mkCube, CUBE_SIZE, Vec3.sub, Vec3.smul,
      Cube.mk.injEq, Vec3.mk.injEq]
    norm_num [min_def, max_def]
  have hrp01 : resolvePair [wallCubeT, wallCubeB, wallCubeC] (0, 1) rng0 =
      ([mkCube ⟨799 / 100, 1, 0⟩ ⟨0, 0, 0⟩ ⟨0, 0, 0⟩ ⟨0, 0, 0⟩,
        mkCube ⟨936 / 125, 101 / 100, 1 / 100⟩ ⟨0, 0, 0⟩ ⟨0, 0, 0⟩ ⟨0, 0, 0⟩,
        wallCubeC], rng0) := by
    rw [resolvePair_sep [wallCubeT, wallCubeB, wallCubeC] (0, 1) rng0 hov01 hrel01]
    show ([sepCube1 wallCubeT wallCubeB, sepCube2 wallCubeT wallCubeB,
      wallCubeC], rng0) = _
    rw [hsep011, hsep012]
  -- pair (0, 2)
  have hov02 : overlapsAABB
      (mkCube ⟨799 / 100, 1, 0⟩ ⟨0, 0, 0⟩ ⟨0, 0, 0⟩ ⟨0, 0, 0⟩) wallCubeC := by
    simp only [overlapsAABB, maxX, minX, maxY, minY, maxZ, minZ, wallCubeC,
      mkCube, CUBE_SIZE]
    norm_num
  have hrel02 : ¬(((mkCube ⟨799 / 100, 1, 0⟩ ⟨0, 0, 0⟩ ⟨0, 0, 0⟩
      ⟨0, 0, 0⟩).velocity.sub wallCubeC.velocity).dot
      (mtvDirection (mkCube ⟨799 / 100, 1, 0⟩ ⟨0, 0, 0⟩ ⟨0, 0, 0⟩ ⟨0, 0, 0⟩)
        wallCubeC) < 0) := by
    rw [show (mkCube ⟨799 / 100, 1, 0⟩ ⟨0, 0, 0⟩ ⟨0, 0, 0⟩
      ⟨0, 0, 0⟩).velocity.sub wallCubeC.velocity = ⟨0, 0, 0⟩ from by
      simp [wallCubeC, mkCube, Vec3.sub], Vec3.zero_dot]
    exact lt_irrefl 0
  have hsep021 : sepCube1 (mkCube ⟨799 / 100, 1, 0⟩ ⟨0, 0, 0⟩ ⟨0, 0, 0⟩
      ⟨0, 0, 0⟩) wallCubeC =
      mkCube ⟨2029 / 250, 1, 0⟩ ⟨0, 0, 0⟩ ⟨0, 0, 0⟩ ⟨0, 0, 0⟩ := by
    simp only [sepCube1, mtvDirection, pairAxis, chooseAxis, separationAmount,
      axisOverlap, overlapX, overlapY, overlapZ, maxX, minX, maxY, minY, maxZ,
      minZ, wallCubeC, mkCube, CUBE_SIZE, Vec3.add, Vec3.smul,
      Cube.mk.injEq, Vec3.mk.injEq]
    norm_num [min_def, max_def]
  have hsep022 : sepCube2 (mkCube ⟨799 / 100, 1, 0⟩ ⟨0, 0, 0⟩ ⟨0, 0, 0⟩
      ⟨0, 0, 0⟩) wallCubeC =
      mkCube ⟨3807 / 500, 1, 0⟩ ⟨0, 0, 0⟩ ⟨0, 0, 0⟩ ⟨0, 0, 0⟩ := by
    simp only [sepCube2, mtvDirection, pairAxis, chooseAxis, separationAmount,
      axisOverlap, overlapX, overlapY, overlapZ, maxX, minX, maxY, minY, maxZ,
      minZ, wallCubeC, mkCube, CUBE_SIZE, Vec3.sub, Vec3.smul,
      Cube.mk.injEq, Vec3.mk.injEq]
    norm_num [min_def, max_def]
  have hrp02 : resolvePair [mkCube ⟨799 / 100, 1, 0⟩ ⟨0, 0, 0⟩ ⟨0, 0, 0⟩ ⟨0, 0, 0⟩,
      mkCube ⟨936 / 125, 101 / 100, 1 / 100⟩ ⟨0, 0, 0⟩ ⟨0, 0, 0⟩ ⟨0, 0, 0⟩,
      wallCubeC] (0, 2) rng0 =
      ([mkCube ⟨2029 / 250, 1, 0⟩ ⟨0, 0, 0⟩ ⟨0, 0, 0⟩ ⟨0, 0, 0⟩,
        mkCube ⟨936 / 125, 101 / 100, 1 / 100⟩ ⟨0, 0, 0⟩ ⟨0, 0, 0⟩ ⟨0, 0, 0⟩,
        mkCube ⟨3807 / 500, 1, 0⟩ ⟨0, 0, 0⟩ ⟨0, 0, 0⟩ ⟨0, 0, 0⟩], rng0) := by
    rw [resolvePair_sep [mkCube ⟨799 / 100, 1, 0⟩ ⟨0, 0, 0⟩ ⟨0, 0, 0⟩ ⟨0, 0, 0⟩,
      mkCube ⟨936 / 125, 101 / 100, 1 / 100⟩ ⟨0, 0, 0⟩ ⟨0, 0, 0⟩ ⟨0, 0, 0⟩,
      wallCubeC] (0, 2) rng0 hov02 hrel02]
    show ([sepCube1 (mkCube ⟨799 / 100, 1, 0⟩ ⟨0, 0, 0⟩ ⟨0, 0, 0⟩ ⟨0, 0, 0⟩) wallCubeC,
      mkCube ⟨936 / 125, 101 / 100, 1 / 100⟩ ⟨0, 0, 0⟩ ⟨0, 0, 0⟩ ⟨0, 0, 0⟩,
      sepCube2 (mkCube ⟨799 / 100, 1, 0⟩ ⟨0, 0, 0⟩ ⟨0, 0, 0⟩ ⟨0, 0, 0⟩) wallCubeC],
      rng0) = _
    rw [hsep021, hsep022]
  -- pair (1, 2)
  have hov12 : overlapsAABB
      (mkCube ⟨936 / 125, 101 / 100, 1 / 100⟩ ⟨0, 0, 0⟩ ⟨0, 0, 0⟩ ⟨0, 0, 0⟩)
      (mkCube ⟨3807 / 500, 1, 0⟩ ⟨0, 0, 0⟩ ⟨0, 0, 0⟩ ⟨0, 0, 0⟩) := by
    simp only [overlapsAABB, maxX, minX, maxY, minY, maxZ, minZ, mkCube,
      CUBE_SIZE]
    norm_num
  have hrel12 : ¬(((mkCube ⟨936 / 125, 101 / 100, 1 / 100⟩ ⟨0, 0, 0⟩ ⟨0, 0, 0⟩
      ⟨0, 0, 0⟩).velocity.sub
      (mkCube ⟨3807 / 500, 1, 0⟩ ⟨0, 0, 0⟩ ⟨0, 0, 0⟩ ⟨0, 0, 0⟩).velocity).dot
      (mtvDirection
        (mkCube ⟨936 / 125, 101 / 100, 1 / 100⟩ ⟨0, 0, 0⟩ ⟨0, 0, 0⟩ ⟨0, 0, 0⟩)
        (mkCube ⟨3807 / 500, 1, 0⟩ ⟨0, 0, 0⟩ ⟨0, 0, 0⟩ ⟨0, 0, 0⟩)) < 0) := by
    rw [show (mkCube ⟨936 / 125, 101 / 100, 1 / 100⟩ ⟨0, 0, 0⟩ ⟨0, 0, 0⟩
      ⟨0, 0, 0⟩).velocity.sub
      (mkCube ⟨3807 / 500, 1, 0⟩ ⟨0, 0, 0⟩ ⟨0, 0, 0⟩ ⟨0, 0, 0⟩).velocity =
      ⟨0, 0, 0⟩ from by simp [mkCube, Vec3.sub], Vec3.zero_dot]
    exact lt_irrefl 0
  have hsep121 : sepCube1
      (mkCube ⟨936 / 125, 101 / 100, 1 / 100⟩ ⟨0, 0, 0⟩ ⟨0, 0, 0⟩ ⟨0, 0, 0⟩)
      (mkCube ⟨3807 / 500, 1, 0⟩ ⟨0, 0, 0⟩ ⟨0, 0, 0⟩ ⟨0, 0, 0⟩) =
      mkCube ⟨73 / 10, 101 / 100, 1 / 100⟩ ⟨0, 0, 0⟩ ⟨0, 0, 0⟩ ⟨0, 0, 0⟩ := by
    simp only [sepCube1, mtvDirection, pairAxis, chooseAxis, separationAmount,
      axisOverlap, overlapX, overlapY, overlapZ, maxX, minX, maxY, minY, maxZ,
      minZ, mkCube, CUBE_SIZE, Vec3.add, Vec3.smul, Cube.mk.injEq,
      Vec3.mk.injEq]
    norm_num [min_def, max_def]
  have hsep122 : sepCube2
      (mkCube ⟨936 / 125, 101 / 100, 1 / 100⟩ ⟨0, 0, 0⟩ ⟨0, 0, 0⟩ ⟨0, 0, 0⟩)
      (mkCube ⟨3807 / 500, 1, 0⟩ ⟨0, 0, 0⟩ ⟨0, 0, 0⟩ ⟨0, 0, 0⟩) =
      mkCube ⟨3901 / 500, 1, 0⟩ ⟨0, 0, 0⟩ ⟨0, 0, 0⟩ ⟨0, 0, 0⟩ := by
    simp only [sepCube2, mtvDirection, pairAxis, chooseAxis, separationAmount,
      axisOverlap, overlapX, overlapY, overlapZ, maxX, minX, maxY, minY, maxZ,
      minZ, mkCube, CUBE_SIZE, Vec3.sub, Vec3.smul, Cube.mk.injEq,
      Vec3.mk.injEq]
    norm_num [min_def, max_def]
  have hrp12 : resolvePair [mkCube ⟨2029 / 250, 1, 0⟩ ⟨0, 0, 0⟩ ⟨0, 0, 0⟩ ⟨0, 0, 0⟩,
      mkCube ⟨936 / 125, 101 / 100, 1 / 100⟩ ⟨0, 0, 0⟩ ⟨0, 0, 0⟩ ⟨0, 0, 0⟩,
      mkCube ⟨3807 / 500, 1, 0⟩ ⟨0, 0, 0⟩ ⟨0, 0, 0⟩ ⟨0, 0, 0⟩] (1, 2) rng0 =
      ([mkCube ⟨2029 / 250, 1, 0⟩ ⟨0, 0, 0⟩ ⟨0, 0, 0⟩ ⟨0, 0, 0⟩,
        mkCube ⟨73 / 10, 101 / 100, 1 / 100⟩ ⟨0, 0, 0⟩ ⟨0, 0, 0⟩ ⟨0, 0, 0⟩,
        mkCube ⟨3901 / 500, 1, 0⟩ ⟨0, 0, 0⟩ ⟨0, 0, 0⟩ ⟨0, 0, 0⟩], rng0) := by
    rw [resolvePair_sep [mkCube ⟨2029 / 250, 1, 0⟩ ⟨0, 0, 0⟩ ⟨0, 0, 0⟩ ⟨0, 0, 0⟩,
      mkCube ⟨936 / 125, 101 / 100, 1 / 100⟩ ⟨0, 0, 0⟩ ⟨0, 0, 0⟩ ⟨0, 0, 0⟩,
      mkCube ⟨3807 / 500, 1, 0⟩ ⟨0, 0, 0⟩ ⟨0, 0, 0⟩ ⟨0, 0, 0⟩] (1, 2) rng0 hov12 hrel12]
    show ([mkCube ⟨2029 / 250, 1, 0⟩ ⟨0, 0, 0⟩ ⟨0, 0, 0⟩ ⟨0, 0, 0⟩,
      sepCube1 (mkCube ⟨936 / 125, 101 / 100, 1 / 100⟩ ⟨0, 0, 0⟩ ⟨0, 0, 0⟩ ⟨0, 0, 0⟩)
        (mkCube ⟨3807 / 500, 1, 0⟩ ⟨0, 0, 0⟩ ⟨0, 0, 0⟩ ⟨0, 0, 0⟩),
      sepCube2 (mkCube ⟨936 / 125, 101 / 100, 1 / 100⟩ ⟨0, 0, 0⟩ ⟨0, 0, 0⟩ ⟨0, 0, 0⟩)
        (mkCube ⟨3807 / 500, 1, 0⟩ ⟨0, 0, 0⟩ ⟨0, 0, 0⟩ ⟨0, 0, 0⟩)], rng0) = _
    rw [hsep121, hsep122]
  -- assemble
  have hnr : ¬((mkWorld [wallCubeT, wallCubeB, wallCubeC] rng0).resetTimer + 0 ≥
      RESET_INTERVAL_SECONDS) := by
    show ¬((0 : ℝ) + 0 ≥ RESET_INTERVAL_SECONDS)
    rw [RESET_INTERVAL_SECONDS]
    norm_num
  have hcubes : (updatePhysics 0 (mkWorld [wallCubeT, wallCubeB, wallCubeC]
      rng0)).cubes =
      [mkCube ⟨2029 / 250, 1, 0⟩ ⟨0, 0, 0⟩ ⟨0, 0, 0⟩ ⟨0, 0, 0⟩,
       mkCube ⟨73 / 10, 101 / 100, 1 / 100⟩ ⟨0, 0, 0⟩ ⟨0, 0, 0⟩ ⟨0, 0, 0⟩,
       mkCube ⟨3901 / 500, 1, 0⟩ ⟨0, 0, 0⟩ ⟨0, 0, 0⟩ ⟨0, 0, 0⟩] := by
    rw [updatePhysics_cubes_noReset _ _ hnr]
    have hcs : (mkWorld [wallCubeT, wallCubeB, wallCubeC] rng0).cubes =
        [wallCubeT, wallCubeB, wallCubeC] := rfl
    have hrg : (mkWorld [wallCubeT, wallCubeB, wallCubeC] rng0).rng = rng0 := rfl
    rw [hcs, hrg]
    have hTstill : wallCubeT = { wallCubeT with resting := false } := rfl
    have hss : stepCubes 0 [wallCubeT, wallCubeB, wallCubeC] rng0 =
        ([wallCubeT, wallCubeB, wallCubeC], rng0) := by
      simp only [stepCubes, hT, hB, hC]
    rw [hss]
    rw [resolveAll, show ([wallCubeT, wallCubeB, wallCubeC] : List Cube).length = 3
      from rfl, pairIdx_three]
    simp only [List.foldl_cons, List.foldl_nil]
    rw [hrp01, hrp02, hrp12]
  rw [hcubes]
  constructor
  · rfl
  · norm_num

theorem resetLoop_length : ∀ (k i : ℕ) (r : Rng), (resetLoop k i r).1.length = k
  | 0, _, _ => rfl
  | k + 1, i, r => by
    simp only [resetLoop, List.length_cons]
    rw [resetLoop_length k (i + 1)]

theorem resetLoop_mem : ∀ (k i : ℕ) (r : Rng), ∀ c ∈ (resetLoop k i r).1,
    ∃ j m, j < i + k ∧ i ≤ j ∧ c = resetCube j (r.height m)
  | 0, i, r => by
    intro c hc
    simp [resetLoop] at hc
  | k + 1, i, r => by
    intro c hc
    simp only [resetLoop] at hc
    rcases List.mem_cons.mp hc with h | h
    · exact ⟨i, r.heightIdx, by omega, le_refl i, by rw [h]; rfl⟩
    · obtain ⟨j, m, hj, hij, hc⟩ := resetLoop_mem k (i + 1) _ c h
      exact ⟨j, m, by omega, by omega, hc⟩

/-- Field values of a freshly initialized body. -/
theorem resetCube_fields (j : ℕ) (h : ℝ) :
    (resetCube j h).velocity = ⟨0, 0, 0⟩ ∧
    (resetCube j h).rotation = ⟨0, 0, 0⟩ ∧
    (resetCube j h).angularVelocity = ⟨0, 0, 0⟩ ∧
    (resetCube j h).size = CUBE_SIZE ∧
    (resetCube j h).resting = false :=
  ⟨rfl, rfl, rfl, rfl, rfl⟩

/-- Claim C8: after a reset with body count n, the collection has exactly n
bodies; every body has zero velocity, zero rotation and zero angular
velocity; positions lie on the 10-by-10 grid (x and z offsets between -5
and 4 world units) with height between the minimum random height 5 and the
maximum random height 15 plus the extra stacking layers for bodies beyond
the first hundred; and the reset timer (with the other counters) is zeroed. -/
theorem resetWorld_spec (n : ℕ) (w : World)
    (hh : ∀ i, 5 ≤ w.rng.height i ∧ w.rng.height i ≤ 15) :
    (resetWorld n w).cubes.length = n ∧
    (∀ c ∈ (resetWorld n w).cubes,
      c.velocity = ⟨0, 0, 0⟩ ∧ c.rotation = ⟨0, 0, 0⟩ ∧
      c.angularVelocity = ⟨0, 0, 0⟩ ∧
      (-5 ≤ c.position.x ∧ c.position.x ≤ 4) ∧
      (-5 ≤ c.position.z ∧ c.position.z ≤ 4) ∧
      (5 ≤ c.position.y ∧ c.position.y ≤ 15 + (((n - 1) / 100 : ℕ) : ℝ))) ∧
    (resetWorld n w).resetTimer = 0 ∧
    (resetWorld n w).secondTimer = 0 ∧
    (resetWorld n w).secondsCount = 0 := by
  refine ⟨?_, ?_, rfl, rfl, rfl⟩
  · exact resetLoop_length n 0 w.rng
  · intro c hc
    obtain ⟨j, m, hj, _, hcj⟩ := resetLoop_mem n 0 w.rng c hc
    subst hcj
    obtain ⟨hl, hu⟩ := hh m
    have hx9 : (j % 10 : ℕ) ≤ 9 := Nat.le_of_lt_succ (Nat.mod_lt _ (by norm_num))
    have hz9 : ((j / 10) % 10 : ℕ) ≤ 9 := Nat.le_of_lt_succ (Nat.mod_lt _ (by norm_num))
    have hy100 : (j / 100 : ℕ) ≤ (n - 1) / 100 :=
      Nat.div_le_div_right (Nat.le_sub_one_of_lt (by omega))
    have hx9' : ((j % 10 : ℕ) : ℝ) ≤ 9 := by exact_mod_cast hx9
    have hz9' : (((j / 10) % 10 : ℕ) : ℝ) ≤ 9 := by exact_mod_cast hz9
    have hy100' : ((j / 100 : ℕ) : ℝ) ≤ (((n - 1) / 100 : ℕ) : ℝ) := by
      exact_mod_cast hy100
    have hx0 : (0 : ℝ) ≤ ((j % 10 : ℕ) : ℝ) := Nat.cast_nonneg _
    have hz0 : (0 : ℝ) ≤ (((j / 10) % 10 : ℕ) : ℝ) := Nat.cast_nonneg _
    have hy0 : (0 : ℝ) ≤ ((j / 100 : ℕ) : ℝ) := Nat.cast_nonneg _
    refine ⟨rfl, rfl, rfl, ⟨?_, ?_⟩, ⟨?_, ?_⟩, ⟨?_, ?_⟩⟩ <;>
      simp only [resetCube, CUBE_SIZE] <;> nlinarith

/-- Witness for C8: a one-body reset from a world whose height stream is
constantly 5. -/
theorem resetWorld_spec_witness :
    (resetWorld 1 (mkWorld [] { rng0 with height := fun _ => 5 })).cubes.length = 1 ∧
    (resetWorld 1 (mkWorld [] { rng0 with height := fun _ => 5 })).resetTimer = 0 := by
  have h := resetWorld_spec 1 (mkWorld [] { rng0 with height := fun _ => 5 })
    (fun i => ⟨le_refl 5, by show (5 : ℝ) ≤ 15; norm_num⟩)
  exact ⟨h.1, h.2.2.1⟩

/-! ## Counting the loop pairs that touch a fixed body index -/

theorem countPairs_cons (k : ℕ) (p : ℕ × ℕ) (ps : List (ℕ × ℕ)) :
    countPairs k (p :: ps) =
      countPairs k ps + if p.1 = k ∨ p.2 = k then 1 else 0 := by
  simp only [countPairs, List.countP_cons]
  by_cases h1 : p.1 = k <;> by_cases h2 : p.2 = k <;> simp [h1, h2]

theorem countPairs_append (k : ℕ) (l1 l2 : List (ℕ × ℕ)) :
    countPairs k (l1 ++ l2) = countPairs k l1 + countPairs k l2 := by
  simp [countPairs, List.countP_append]

theorem count_range (n k : ℕ) :
    (List.range n).count k = if k < n then 1 else 0 := by
  induction n with
  | zero => simp
  | succ n ih =>
    rw [List.range_succ, List.count_append, ih]
    have hone : [n].count k = if k = n then 1 else 0 := by
      by_cases h : k = n <;> simp [List.count_cons, h]
    rw [hone]
    rcases Nat.lt_trichotomy k n with h | h | h
    · rw [if_pos h, if_neg (by omega : ¬ k = n), if_pos (by omega : k < n + 1)]
    · subst h
      rw [if_neg (lt_irrefl k), if_pos rfl, if_pos (Nat.lt_succ_self k)]
    · rw [if_neg (by omega : ¬ k < n), if_neg (by omega : ¬ k = n),
        if_neg (by omega : ¬ k < n + 1)]

theorem length_filter_lt (n m : ℕ) :
    ((List.range n).filter fun j => m < j).length = n - (m + 1) := by
  induction n with
  | zero => simp
  | succ n ih =>
    rw [List.range_succ, List.filter_append, List.length_append, ih]
    by_cases h : m < n <;> simp [List.filter_cons, h] <;> omega

theorem pairsOuter_mem (n : ℕ) : ∀ m, ∀ p ∈ pairsOuter n m, p.1 < m ∧ p.2 < n
  | 0 => by
    intro p hp
    simp [pairsOuter] at hp
  | m + 1 => by
    intro p hp
    simp only [pairsOuter] at hp
    rcases List.mem_append.mp hp with h | h
    · obtain ⟨h1, h3⟩ := pairsOuter_mem n m p h
      exact ⟨Nat.lt_succ_of_lt h1, h3⟩
    · obtain ⟨j, hj, hpj⟩ := List.mem_map.mp h
      obtain ⟨hjr, _⟩ := List.mem_filter.mp hj
      rw [← hpj]
      exact ⟨Nat.lt_succ_self m, List.mem_range.mp hjr⟩

theorem countP_map_pair (m k : ℕ) (L : List ℕ) :
    countPairs k (L.map fun j => (m, j)) =
      if m = k then L.length else L.count k := by
  induction L with
  | nil => by_cases h : m = k <;> simp [countPairs, h]
  | cons j L ih =>
    simp only [List.map_cons]
    rw [countPairs_cons, ih]
    by_cases h : m = k
    · rw [if_pos h, if_pos h, if_pos (Or.inl h), List.length_cons]
    · rw [if_neg h, if_neg h]
      by_cases hj : j = k
      · subst hj
        rw [if_pos (Or.inr rfl)]
        simp [List.count_cons]
      · have hcond : ¬((m, j).1 = k ∨ (m, j).2 = k) := by
          simp only [not_or]
          exact ⟨h, hj⟩
        have hbeq : (k == j) = false := beq_false_of_ne fun he => hj he.symm
        rw [if_neg hcond]
        simp [List.count_cons, hbeq]
        exact hj

theorem countPairs_block (n m k : ℕ) (hk : k < n) :
    countPairs k (((List.range n).filter fun j => m < j).map fun j => (m, j)) =
      if m = k then n - 1 - k else if m < k then 1 else 0 := by
  rw [countP_map_pair]
  by_cases hm : m = k
  · subst hm
    rw [if_pos rfl, if_pos rfl, length_filter_lt]
    omega
  · rw [if_neg hm, if_neg hm]
    by_cases hmk : m < k
    · rw [if_pos hmk, List.count_filter (by simpa using hmk), count_range,
        if_pos hk]
    · rw [if_neg hmk]
      have hz : ((List.range n).filter fun j => m < j).count k = 0 := by
        rw [List.count_eq_zero]
        intro hmem
        exact hmk (by simpa using (List.mem_filter.mp hmem).2)
      exact hz

theorem countPairs_pairsOuter (n k : ℕ) (hk : k < n) :
    ∀ m, countPairs k (pairsOuter n m) =
      min m k + if k < m then n - 1 - k else 0
  | 0 => by simp [pairsOuter, countPairs]
  | m + 1 => by
    simp only [pairsOuter]
    rw [countPairs_append, countPairs_pairsOuter n k hk m,
      countPairs_block n m k hk]
    simp only [Nat.min_def]
    split_ifs <;> omega

theorem countPairs_pairIdx_le (n k : ℕ) :
    (countPairs k (pairIdx n) : ℝ) ≤ ((n - 1 : ℕ) : ℝ) := by
  have hP : pairIdx n = pairsOuter n n := rfl
  rcases lt_or_ge k n with hk | hk
  · rw [hP, countPairs_pairsOuter n k hk n]
    have he : min n k + (if k < n then n - 1 - k else 0) = n - 1 := by
      rw [if_pos hk, min_eq_right (le_of_lt hk)]
      omega
    rw [he]
  · have hz : countPairs k (pairIdx n) = 0 := by
      rw [hP]
      simp only [countPairs]
      rw [List.countP_eq_zero]
      intro p hp
      obtain ⟨h1, h3⟩ := pairsOuter_mem n n p hp
      simp only [Bool.or_eq_true, beq_iff_eq, not_or]
      omega
    rw [hz]
    exact_mod_cast Nat.zero_le _

/-! ## Geometric bounds on one pairwise resolution -/

theorem minmax_bounds (a1 a2 b1 b2 : ℝ) (w1l : b1 ≤ a1) (w1u : a1 - b1 ≤ 1 / 2)
    (w2l : b2 ≤ a2) (h12 : b2 < a1) (h21 : b1 < a2) :
    0 ≤ min a1 a2 - max b1 b2 ∧ min a1 a2 - max b1 b2 ≤ 1 / 2 := by
  constructor
  · have h := max_le (le_min w1l (le_of_lt h21)) (le_min (le_of_lt h12) w2l)
    linarith
  · have h3 := min_le_left a1 a2
    have h4 := le_max_left b1 b2
    linarith

theorem getD_size (cs : List Cube) (i : ℕ)
    (hs : ∀ c ∈ cs, c.size = CUBE_SIZE) :
    0 ≤ (cs.getD i default).size ∧ (cs.getD i default).size ≤ 1 / 2 := by
  rcases getD_mem_or_default cs i with h | h
  · rw [hs _ h, CUBE_SIZE]
    norm_num
  · rw [h]
    constructor
    · show (0 : ℝ) ≤ 0
      exact le_refl 0
    · show (0 : ℝ) ≤ 1 / 2
      norm_num

theorem separationAmount_bounds (c1 c2 : Cube)
    (h1l : 0 ≤ c1.size) (h1u : c1.size ≤ 1 / 2) (h2l : 0 ≤ c2.size)
    (hov : overlapsAABB c1 c2) :
    0 < separationAmount c1 c2 ∧ separationAmount c1 c2 ≤ 251 / 1000 := by
  obtain ⟨⟨hx1, hx2⟩, ⟨hy1, hy2⟩, ⟨hz1, hz2⟩⟩ :=
    (hov : (maxX c1 > minX c2 ∧ minX c1 < maxX c2) ∧
      (maxY c1 > minY c2 ∧ minY c1 < maxY c2) ∧
      (maxZ c1 > minZ c2 ∧ minZ c1 < maxZ c2))
  obtain ⟨hX0, hX1⟩ : 0 ≤ overlapX c1 c2 ∧ overlapX c1 c2 ≤ 1 / 2 :=
    minmax_bounds (maxX c1) (maxX c2) (minX c1) (minX c2)
      (by simp only [minX, maxX]; linarith)
      (by simp only [minX, maxX]; linarith)
      (by simp only [minX, maxX]; linarith) hx1 hx2
  obtain ⟨hY0, hY1⟩ : 0 ≤ overlapY c1 c2 ∧ overlapY c1 c2 ≤ 1 / 2 :=
    minmax_bounds (maxY c1) (maxY c2) (minY c1) (minY c2)
      (by simp only [minY, maxY]; linarith)
      (by simp only [minY, maxY]; linarith)
      (by simp only [minY, maxY]; linarith) hy1 hy2
  obtain ⟨hZ0, hZ1⟩ : 0 ≤ overlapZ c1 c2 ∧ overlapZ c1 c2 ≤ 1 / 2 :=
    minmax_bounds (maxZ c1) (maxZ c2) (minZ c1) (minZ c2)
      (by simp only [minZ, maxZ]; linarith)
      (by simp only [minZ, maxZ]; linarith)
      (by simp only [minZ, maxZ]; linarith) hz1 hz2
  have hsep : separationAmount c1 c2 =
      axisOverlap (pairAxis c1 c2) (overlapX c1 c2) (overlapY c1 c2)
        (overlapZ c1 c2) / 2 + 1 / 1000 := rfl
  rw [hsep]
  cases hA : pairAxis c1 c2 <;> simp only [axisOverlap] <;>
    constructor <;> linarith

theorem mtv_components (c1 c2 : Cube) :
    ((mtvDirection c1 c2).x = 0 ∨ (mtvDirection c1 c2).x = 1 ∨
      (mtvDirection c1 c2).x = -1) ∧
    ((mtvDirection c1 c2).y = 0 ∨ (mtvDirection c1 c2).y = 1 ∨
      (mtvDirection c1 c2).y = -1) ∧
    ((mtvDirection c1 c2).z = 0 ∨ (mtvDirection c1 c2).z = 1 ∨
      (mtvDirection c1 c2).z = -1) := by
  cases hA : pairAxis c1 c2 <;> simp only [mtvDirection, hA] <;>
    split_ifs <;> norm_num

theorem sepMove_bound (c1 c2 : Cube)
    (h1l : 0 ≤ c1.size) (h1u : c1.size ≤ 1 / 2) (h2l : 0 ≤ c2.size)
    (hov : overlapsAABB c1 c2) :
    |(sepCube1 c1 c2).position.x - c1.position.x| ≤ 251 / 1000 ∧
    |(sepCube1 c1 c2).position.z - c1.position.z| ≤ 251 / 1000 ∧
    |(sepCube2 c1 c2).position.x - c2.position.x| ≤ 251 / 1000 ∧
    |(sepCube2 c1 c2).position.z - c2.position.z| ≤ 251 / 1000 := by
  obtain ⟨ha0, ha1⟩ := separationAmount_bounds c1 c2 h1l h1u h2l hov
  obtain ⟨hx, hy, hz⟩ := mtv_components c1 c2
  have key : ∀ d : ℝ, (d = 0 ∨ d = 1 ∨ d = -1) →
      |d * separationAmount c1 c2| ≤ 251 / 1000 := by
    intro d hd
    rcases hd with h | h | h <;> rw [h]
    · rw [zero_mul, abs_zero]
      norm_num
    · rw [one_mul, abs_of_pos ha0]
      exact ha1
    · rw [neg_one_mul, abs_neg, abs_of_pos ha0]
      exact ha1
  refine ⟨?_, ?_, ?_, ?_⟩
  · have e : (sepCube1 c1 c2).position.x - c1.position.x =
        (mtvDirection c1 c2).x * separationAmount c1 c2 := by
      show c1.position.x + (mtvDirection c1 c2).x * separationAmount c1 c2 -
        c1.position.x = (mtvDirection c1 c2).x * separationAmount c1 c2
      ring
    rw [e]
    exact key _ hx
  · have e : (sepCube1 c1 c2).position.z - c1.position.z =
        (mtvDirection c1 c2).y * separationAmount c1 c2 := by
      show c1.position.z + (mtvDirection c1 c2).y * separationAmount c1 c2 -
        c1.position.z = (mtvDirection c1 c2).y * separationAmount c1 c2
      ring
    rw [e]
    exact key _ hy
  · have e : (sepCube2 c1 c2).position.x - c2.position.x =
        -((mtvDirection c1 c2).x * separationAmount c1 c2) := by
      show c2.position.x - (mtvDirection c1 c2).x * separationAmount c1 c2 -
        c2.position.x = -((mtvDirection c1 c2).x * separationAmount c1 c2)
      ring
    rw [e, abs_neg]
    exact key _ hx
  · have e : (sepCube2 c1 c2).position.z - c2.position.z =
        -((mtvDirection c1 c2).z * separationAmount c1 c2) := by
      show c2.position.z - (mtvDirection c1 c2).z * separationAmount c1 c2 -
        c2.position.z = -((mtvDirection c1 c2).z * separationAmount c1 c2)
      ring
    rw [e, abs_neg]
    exact key _ hz

theorem set_set_move (cs : List Cube) (i j k : ℕ) (C1 C2 : Cube) (b : ℝ)
    (hb : 0 ≤ b)
    (h1x : |C1.position.x - (cs.getD i default).position.x| ≤ b)
    (h1z : |C1.position.z - (cs.getD i default).position.z| ≤ b)
    (h2x : |C2.position.x - (cs.getD j default).position.x| ≤ b)
    (h2z : |C2.position.z - (cs.getD j default).position.z| ≤ b) :
    |(((cs.set i C1).set j C2).getD k default).position.x -
        (cs.getD k default).position.x| ≤ (if i = k ∨ j = k then b else 0) ∧
    |(((cs.set i C1).set j C2).getD k default).position.z -
        (cs.getD k default).position.z| ≤ (if i = k ∨ j = k then b else 0) := by
  by_cases hj : j = k
  · rw [if_pos (Or.inr hj)]
    subst hj
    by_cases hl : j < cs.length
    · rw [getD_set_self _ _ _ (by simpa using hl)]
      exact ⟨h2x, h2z⟩
    · rw [getD_oob ((cs.set i C1).set j C2) (by simpa using le_of_not_lt hl),
        getD_oob cs (le_of_not_lt hl)]
      simp only [sub_self, abs_zero]
      exact ⟨hb, hb⟩
  · rw [getD_set_ne _ _ hj]
    by_cases hi : i = k
    · rw [if_pos (Or.inl hi)]
      subst hi
      by_cases hl : i < cs.length
      · rw [getD_set_self _ _ _ hl]
        exact ⟨h1x, h1z⟩
      · rw [getD_oob (cs.set i C1) (by simpa using le_of_not_lt hl),
          getD_oob cs (le_of_not_lt hl)]
        simp only [sub_self, abs_zero]
        exact ⟨hb, hb⟩
    · rw [getD_set_ne _ _ hi, if_neg (by tauto : ¬(i = k ∨ j = k))]
      simp only [sub_self, abs_zero]
      exact ⟨le_refl 0, le_refl 0⟩

theorem getD_size_of_lt (cs : List Cube) (i : ℕ) (hi : i < cs.length)
    (hs : ∀ c ∈ cs, c.size = CUBE_SIZE) :
    (cs.getD i default).size = CUBE_SIZE := by
  rw [List.getD_eq_getElem cs default hi]
  exact hs _ (List.getElem_mem hi)

theorem set_sizes (cs : List Cube) (i : ℕ) (C : Cube)
    (hs : ∀ c ∈ cs, c.size = CUBE_SIZE)
    (hC : i < cs.length → C.size = CUBE_SIZE) :
    ∀ c ∈ cs.set i C, c.size = CUBE_SIZE := by
  intro c hc
  by_cases hi : i < cs.length
  · rcases List.mem_or_eq_of_mem_set hc with h | h
    · exact hs c h
    · rw [h]
      exact hC hi
  · rw [List.set_eq_of_length_le (le_of_not_lt hi)] at hc
    exact hs c hc

theorem resolvePair_sizes (cs : List Cube) (p : ℕ × ℕ) (r : Rng)
    (hs : ∀ c ∈ cs, c.size = CUBE_SIZE) :
    ∀ c ∈ (resolvePair cs p r).1, c.size = CUBE_SIZE := by
  simp only [resolvePair]
  split
  · split
    · refine set_sizes _ _ _ (set_sizes cs _ _ hs ?_) ?_
      · intro hi
        exact getD_size_of_lt cs p.1 hi hs
      · intro hi
        exact getD_size_of_lt cs p.2 (by simpa using hi) hs
    · refine set_sizes _ _ _ (set_sizes cs _ _ hs ?_) ?_
      · intro hi
        exact getD_size_of_lt cs p.1 hi hs
      · intro hi
        exact getD_size_of_lt cs p.2 (by simpa using hi) hs
  · exact hs

theorem resolvePair_move (cs : List Cube) (p : ℕ × ℕ) (r : Rng) (k : ℕ)
    (hs : ∀ c ∈ cs, c.size = CUBE_SIZE) :
    |((resolvePair cs p r).1.getD k default).position.x -
        (cs.getD k default).position.x| ≤
      (if p.1 = k ∨ p.2 = k then (251 / 1000 : ℝ) else 0) ∧
    |((resolvePair cs p r).1.getD k default).position.z -
        (cs.getD k default).position.z| ≤
      (if p.1 = k ∨ p.2 = k then (251 / 1000 : ℝ) else 0) := by
  have hzero : (0 : ℝ) ≤ if p.1 = k ∨ p.2 = k then (251 / 1000 : ℝ) else 0 := by
    split <;> norm_num
  obtain ⟨h1l, h1u⟩ := getD_size cs p.1 hs
  obtain ⟨h2l, _⟩ := getD_size cs p.2 hs
  by_cases hov : overlapsAABB (cs.getD p.1 default) (cs.getD p.2 default)
  · obtain ⟨e1x, e1z, e2x, e2z⟩ :=
      sepMove_bound (cs.getD p.1 default) (cs.getD p.2 default) h1l h1u h2l hov
    simp only [resolvePair, if_pos hov]
    split
    · refine set_set_move cs p.1 p.2 k _ _ _ ?_ ?_ ?_ ?_ ?_
      · norm_num
      · exact e1x
      · exact e1z
      · exact e2x
      · exact e2z
    · refine set_set_move cs p.1 p.2 k _ _ _ ?_ ?_ ?_ ?_ ?_
      · norm_num
      · exact e1x
      · exact e1z
      · exact e2x
      · exact e2z
  · rw [resolvePair_noOverlap cs p r hov]
    constructor <;> simpa using hzero

/-! ## Folding the bound over the whole pairwise pass -/

theorem foldPairs_sizes (ps : List (ℕ × ℕ)) : ∀ (cs : List Cube) (r : Rng),
    (∀ c ∈ cs, c.size = CUBE_SIZE) →
    ∀ c ∈ (ps.foldl (fun st p => resolvePair st.1 p st.2) (cs, r)).1,
      c.size = CUBE_SIZE := by
  induction ps with
  | nil =>
    intro cs r hs
    simpa using hs
  | cons p ps ih =>
    intro cs r hs
    have hfold : ((p :: ps).foldl (fun st q => resolvePair st.1 q st.2)
        (cs, r)) = ps.foldl (fun st q => resolvePair st.1 q st.2)
          ((resolvePair cs p r).1, (resolvePair cs p r).2) := rfl
    rw [hfold]
    exact ih (resolvePair cs p r).1 (resolvePair cs p r).2
      (resolvePair_sizes cs p r hs)

theorem foldPairs_move (ps : List (ℕ × ℕ)) : ∀ (cs : List Cube) (r : Rng)
    (k : ℕ), (∀ c ∈ cs, c.size = CUBE_SIZE) →
    |((ps.foldl (fun st p => resolvePair st.1 p st.2) (cs, r)).1.getD k
        default).position.x - (cs.getD k default).position.x| ≤
      251 / 1000 * (countPairs k ps : ℝ) ∧
    |((ps.foldl (fun st p => resolvePair st.1 p st.2) (cs, r)).1.getD k
        default).position.z - (cs.getD k default).position.z| ≤
      251 / 1000 * (countPairs k ps : ℝ) := by
  induction ps with
  | nil =>
    intro cs r k hs
    have h0 : countPairs k ([] : List (ℕ × ℕ)) = 0 := rfl
    rw [h0]
    simp
  | cons p ps ih =>
    intro cs r k hs
    have h1 := resolvePair_move cs p r k hs
    have h2 := ih (resolvePair cs p r).1 (resolvePair cs p r).2 k
      (resolvePair_sizes cs p r hs)
    have hstep : 251 / 1000 * (countPairs k ps : ℝ) +
        (if p.1 = k ∨ p.2 = k then (251 / 1000 : ℝ) else 0) ≤
        251 / 1000 * (countPairs k (p :: ps) : ℝ) := by
      rw [countPairs_cons]
      split_ifs <;> push_cast <;> linarith
    have hfold : ((p :: ps).foldl (fun st q => resolvePair st.1 q st.2)
        (cs, r)) = ps.foldl (fun st q => resolvePair st.1 q st.2)
          ((resolvePair cs p r).1, (resolvePair cs p r).2) := rfl
    rw [hfold]
    constructor
    · have tri := abs_sub_le
        (((ps.foldl (fun st q => resolvePair st.1 q st.2)
          ((resolvePair cs p r).1, (resolvePair cs p r).2)).1.getD k
            default).position.x)
        (((resolvePair cs p r).1.getD k default).position.x)
        ((cs.getD k default).position.x)
      linarith [h1.1, h2.1, tri, hstep]
    · have tri := abs_sub_le
        (((ps.foldl (fun st q => resolvePair st.1 q st.2)
          ((resolvePair cs p r).1, (resolvePair cs p r).2)).1.getD k
            default).position.z)
        (((resolvePair cs p r).1.getD k default).position.z)
        ((cs.getD k default).position.z)
      linarith [h1.2, h2.2, tri, hstep]

/-! ## Bounds after the per-cube phase -/

theorem stepCube_size (dt : ℝ) (c : Cube) (r : Rng) :
    (stepCube dt c r).1.size = c.size := by
  simp only [stepCube]
  rw [restingUpdate_size, wallZResponse_size, wallXResponse_size,
    groundResponse_size, integrate_size]

theorem stepCube_xz_bound (dt : ℝ) (c : Cube) (r : Rng)
    (hs : c.size = CUBE_SIZE) :
    |(stepCube dt c r).1.position.x| ≤ 31 / 4 ∧
    |(stepCube dt c r).1.position.z| ≤ 31 / 4 := by
  have hg : (groundResponse (integrate dt c) r).1.size = CUBE_SIZE := by
    rw [groundResponse_size, integrate_size]
    exact hs
  have hwx : (wallXResponse (groundResponse (integrate dt c) r).1
      (groundResponse (integrate dt c) r).2).1.size = CUBE_SIZE := by
    rw [wallXResponse_size]
    exact hg
  constructor
  · have hx := wallXResponse_x_bounds (groundResponse (integrate dt c) r).1
      (groundResponse (integrate dt c) r).2 hg
    have e : (stepCube dt c r).1.position.x =
        (wallXResponse (groundResponse (integrate dt c) r).1
          (groundResponse (integrate dt c) r).2).1.position.x := by
      simp only [stepCube]
      rw [restingUpdate_position, wallZResponse_pos_x]
    rw [e]
    exact abs_le.mpr ⟨hx.1, hx.2⟩
  · have hz := wallZResponse_z_bounds
      (wallXResponse (groundResponse (integrate dt c) r).1
        (groundResponse (integrate dt c) r).2).1
      (wallXResponse (groundResponse (integrate dt c) r).1
        (groundResponse (integrate dt c) r).2).2 hwx
    have e : (stepCube dt c r).1.position.z =
        (wallZResponse (wallXResponse (groundResponse (integrate dt c) r).1
          (groundResponse (integrate dt c) r).2).1
          (wallXResponse (groundResponse (integrate dt c) r).1
            (groundResponse (integrate dt c) r).2).2).1.position.z := by
      simp only [stepCube]
      rw [restingUpdate_position]
    rw [e]
    exact abs_le.mpr ⟨hz.1, hz.2⟩

theorem stepCubes_sizes (dt : ℝ) (cs : List Cube) (r : Rng)
    (hs : ∀ c ∈ cs, c.size = CUBE_SIZE) :
    ∀ c ∈ (stepCubes dt cs r).1, c.size = CUBE_SIZE := by
  intro c hc
  obtain ⟨c0, r0, hc0, he⟩ := stepCubes_mem dt cs r c hc
  rw [he, stepCube_size]
  exact hs c0 hc0

theorem stepCubes_xz_bound (dt : ℝ) (cs : List Cube) (r : Rng) (k : ℕ)
    (hs : ∀ c ∈ cs, c.size = CUBE_SIZE) :
    |((stepCubes dt cs r).1.getD k default).position.x| ≤ 31 / 4 ∧
    |((stepCubes dt cs r).1.getD k default).position.z| ≤ 31 / 4 := by
  rcases getD_mem_or_default (stepCubes dt cs r).1 k with hm | hd
  · obtain ⟨c0, r0, hc0, he⟩ := stepCubes_mem dt cs r _ hm
    rw [he]
    exact stepCube_xz_bound dt c0 r0 (hs c0 hc0)
  · rw [hd]
    show |(0 : ℝ)| ≤ 31 / 4 ∧ |(0 : ℝ)| ≤ 31 / 4
    norm_num

/-- The body collection after a whole-world step is the two physics phases
applied to some collection with the same body count (the current one, or a
fresh reset collection), all of whose bodies have the global cube size. -/
theorem updatePhysics_cubes_origin (dt : ℝ) (w : World)
    (hs : ∀ c ∈ w.cubes, c.size = CUBE_SIZE) :
    ∃ cs r, (updatePhysics dt w).cubes =
      (resolveAll (stepCubes dt cs r).1 (stepCubes dt cs r).2).1 ∧
      cs.length = w.cubes.length ∧ ∀ c ∈ cs, c.size = CUBE_SIZE := by
  by_cases hrt : w.resetTimer + dt ≥ RESET_INTERVAL_SECONDS
  · refine ⟨(resetCubes w.cubes.length w.rng).1,
      (resetCubes w.cubes.length w.rng).2, ?_, ?_, ?_⟩
    · simp only [updatePhysics, resetWorld, if_pos hrt]
    · exact resetLoop_length w.cubes.length 0 w.rng
    · intro c hc
      obtain ⟨j, m, _, _, hcj⟩ := resetLoop_mem w.cubes.length 0 w.rng c hc
      rw [hcj]
      rfl
  · refine ⟨w.cubes, w.rng, ?_, rfl, hs⟩
    simp only [updatePhysics, if_neg hrt]

/-- Claim C2 amended: the walls do keep every body's x and z coordinates
bounded, but not within the claimed |coordinate| ≤ 8 - size/2 band: each
pairwise separation can push a body that the wall blocks already placed at
the limit 31/4 by up to overlap/2 + 0.001 ≤ 0.251 further, and a body
takes part in at most N - 1 of the loop's pairs.  After every step each
body therefore satisfies |position.x| ≤ 31/4 + 0.251(N - 1) and likewise
for z (the counterexample shows the slack below 8 really is spent: with
three bodies x reaches 8.116 > 8). -/
theorem updatePhysics_position_bounded (dt : ℝ) (w : World)
    (hs : ∀ c ∈ w.cubes, c.size = CUBE_SIZE) (k : ℕ) :
    |((updatePhysics dt w).cubes.getD k default).position.x| ≤
      31 / 4 + 251 / 1000 * ((w.cubes.length - 1 : ℕ) : ℝ) ∧
    |((updatePhysics dt w).cubes.getD k default).position.z| ≤
      31 / 4 + 251 / 1000 * ((w.cubes.length - 1 : ℕ) : ℝ) := by
  obtain ⟨cs, r, hw, hlen, hcs⟩ := updatePhysics_cubes_origin dt w hs
  rw [hw]
  have hlen2 : (stepCubes dt cs r).1.length = w.cubes.length := by
    rw [stepCubes_length dt cs r]
    exact hlen
  have hre : (resolveAll (stepCubes dt cs r).1 (stepCubes dt cs r).2).1 =
      ((pairIdx w.cubes.length).foldl (fun st p => resolvePair st.1 p st.2)
        ((stepCubes dt cs r).1, (stepCubes dt cs r).2)).1 := by
    have h1 : (resolveAll (stepCubes dt cs r).1 (stepCubes dt cs r).2).1 =
        ((pairIdx (stepCubes dt cs r).1.length).foldl
          (fun st p => resolvePair st.1 p st.2)
          ((stepCubes dt cs r).1, (stepCubes dt cs r).2)).1 := rfl
    rw [h1, hlen2]
  rw [hre]
  have hmove := foldPairs_move (pairIdx w.cubes.length) (stepCubes dt cs r).1
    (stepCubes dt cs r).2 k (stepCubes_sizes dt cs r hcs)
  have hcount := countPairs_pairIdx_le w.cubes.length k
  have hb := stepCubes_xz_bound dt cs r k hcs
  have hscale := mul_le_mul_of_nonneg_left hcount
    (by norm_num : (0 : ℝ) ≤ 251 / 1000)
  constructor
  · have tri := abs_sub_abs_le_abs_sub
      ((((pairIdx w.cubes.length).foldl (fun st p => resolvePair st.1 p st.2)
        ((stepCubes dt cs r).1, (stepCubes dt cs r).2)).1.getD k
          default).position.x)
      (((stepCubes dt cs r).1.getD k default).position.x)
    linarith [hmove.1, hb.1, tri, hscale]
  · have tri := abs_sub_abs_le_abs_sub
      ((((pairIdx w.cubes.length).foldl (fun st p => resolvePair st.1 p st.2)
        ((stepCubes dt cs r).1, (stepCubes dt cs r).2)).1.getD k
          default).position.z)
      (((stepCubes dt cs r).1.getD k default).position.z)
    linarith [hmove.2, hb.2, tri, hscale]

/-- Witness for the amended containment bound: a one-body world stepped
with dt = 0, whose single body has the global cube size. -/
theorem updatePhysics_position_bounded_witness :
    (∀ c ∈ (mkWorld [cubeA] rng0).cubes, c.size = CUBE_SIZE) ∧
    |((updatePhysics 0 (mkWorld [cubeA] rng0)).cubes.getD 0
        default).position.x| ≤
      31 / 4 + 251 / 1000 *
        (((mkWorld [cubeA] rng0).cubes.length - 1 : ℕ) : ℝ) := by
  have hs : ∀ c ∈ (mkWorld [cubeA] rng0).cubes, c.size = CUBE_SIZE := by
    intro c hc
    have hc' : c ∈ [cubeA] := hc
    have he : c = cubeA := by simpa using hc'
    rw [he]
    rfl
  exact ⟨hs, (updatePhysics_position_bounded 0 (mkWorld [cubeA] rng0) hs 0).1⟩

end

end Renderz
